import Mathlib

/-!
# Opus JNI binding (`app/src/main/cpp/opus_jni.cpp`)

A shallow embedding of the decoder wrapper class and of the JNI entry points of
`opus_jni.cpp`, followed by the properties proved about them.

Modelling conventions

* The Opus library is external.  It is a parameter `OpusLib Λ`: an abstract state machine
  over a library state `Λ` (all decoder objects live there), with the error constants of
  `opus_defines.h` as fields.  An `OpusDecoder*` is an `Option Nat` (`none` is `nullptr`).
* Every call into the library, every native PCM buffer construction and every Java array
  construction or region copy is recorded, newest first, in `World.trace`, together with
  the value the call returned.
* C++ `int`, `jint` and `jsize` are integers reduced by `wrap32` wherever the source computes
  a product.  `std::vector<short>(n)` receives `n` converted to `size_t`; a negative `int`
  becomes a value above `max_size()` and the constructor throws, and it throws as well when
  the native heap cannot supply the buffer.  Nothing catches the exception, so the call has
  the outcome `JArrayRet.abort`.
* A region copy that would read past the end of the PCM buffer is undefined in C++; the
  call then has no defined result, which is the outcome `JArrayRet.abort` too.
* A Java input array is the list of its elements (a non-null `jbyteArray`).
-/

namespace OpusJni

/-- Reduction of an integer to the 32-bit two's-complement range of `int`/`jint`/`jsize`. -/
def wrap32 (x : Int) : Int :=
  (x + 2147483648) % 4294967296 - 2147483648

/-- Reduction of an integer to the 8-bit two's-complement range of `jbyte`. -/
def wrap8 (x : Int) : Int :=
  (x + 128) % 256 - 128

/-- Observable events of one run: library calls with their results, native buffer
constructions, Java array constructions and region copies. -/
inductive Event where
  | opus_decoder_create (Fs channels : Int) (ret : Option Nat) (error : Int)
  | opus_decoder_destroy (st : Nat)
  | opus_decode (st : Nat) (data : Option (List Int)) (len frame_size ret : Int)
  | opus_packet_get_nb_samples (packet : List Int) (len Fs ret : Int)
  | opus_packet_get_nb_channels (packet : List Int) (ret : Int)
  | vector_short (n : Int)
  | NewByteArray (length : Int)
  | NewShortArray (length : Int)
  | SetByteArrayRegion (len : Int)
  | SetShortArrayRegion (len : Int)
  deriving DecidableEq, Repr

/-- The part of the Opus C API used by the binding, as a state machine over the library
state `Λ`.  `opus_decode` returns the sample count (or a negative error) and the samples it
stored through `pcm`. -/
structure OpusLib (Λ : Type) where
  OPUS_OK : Int
  OPUS_BAD_ARG : Int
  OPUS_INVALID_STATE : Int
  opus_decoder_create : Λ → Int → Int → (Option Nat × Int) × Λ
  opus_decoder_destroy : Λ → Nat → Λ
  opus_decode : Λ → Nat → Option (List Int) → Int → Int → Int → (Int × List Int) × Λ
  opus_packet_get_nb_samples : List Int → Int → Int → Int
  opus_packet_get_nb_channels : List Int → Int

/-- The fields of `class OpusDecoderWrapper`. -/
structure OpusDecoderWrapper where
  decoder : Option Nat
  sampleRate : Int
  channels : Int
  maxFrameSize : Int
  deriving DecidableEq, Repr

/-- Process state: the library state, the event trace, the `static` singleton
`globalDecoder`, and the wrappers released to the caller, by address. -/
structure World (Λ : Type) where
  lib : Λ
  trace : List Event
  globalDecoder : Option OpusDecoderWrapper
  heap : List (Int × OpusDecoderWrapper)
  heapNext : Nat

/-- Per-call behaviour of the runtime: whether `GetByteArrayElements` yields a buffer,
whether `NewByteArray`/`NewShortArray` can construct the array, and whether the native heap
supplies a PCM buffer larger than the largest Opus frame on two channels. -/
structure JNIEnv where
  GetByteArrayElements_ok : Bool
  NewArray_ok : Bool
  vector_ok : Bool
  deriving DecidableEq, Repr

/-- Result of an entry point returning a Java array: `nullptr`, an array (its elements), or
no defined result (an uncaught C++ exception, a runtime abort, undefined behaviour). -/
inductive JArrayRet where
  | null
  | array (elems : List Int)
  | abort
  deriving DecidableEq, Repr

variable {Λ : Type}

/-! ## Native buffers and Java arrays -/

/-- Whether `std::vector<short>(n)` can be constructed: never for a negative `int`; a buffer
of at most 11520 samples (the largest Opus frame, 5760 samples, on two channels) is taken to
be available, like the wrapper object itself; a larger one when the heap supplies it. -/
def vector_available (env : JNIEnv) (n : Int) : Bool :=
  decide (0 ≤ n) && (decide (n ≤ 11520) || env.vector_ok)

/-- `std::vector<short> v(n)` with `n` an `int`: value-initialised elements, or the
constructor throws. -/
def vector_short (env : JNIEnv) (n : Int) (w : World Λ) : Option (List Int) × World Λ :=
  if vector_available env n then
    (some (List.replicate n.toNat 0), { w with trace := Event.vector_short n :: w.trace })
  else (none, w)

/-- The buffer after the codec stored `pcm` from its start (stores past the end of the
buffer are cut off). -/
def storePcm (buffer pcm : List Int) : List Int :=
  pcm.take buffer.length ++ buffer.drop pcm.length

/-- In-memory bytes of one little-endian 16-bit sample, as `jbyte` values. -/
def shortBytes (x : Int) : List Int :=
  [wrap8 (x % 256), wrap8 (x / 256 % 256)]

/-- `env->NewByteArray(length)`: no array for a negative length or when the runtime cannot
construct one. -/
def NewByteArray (env : JNIEnv) (length : Int) (w : World Λ) : Option (List Int) × World Λ :=
  if env.NewArray_ok && decide (0 ≤ length) then
    (some (List.replicate length.toNat 0),
      { w with trace := Event.NewByteArray length :: w.trace })
  else (none, w)

/-- `env->NewShortArray(length)`: no array for a negative length or when the runtime cannot
construct one. -/
def NewShortArray (env : JNIEnv) (length : Int) (w : World Λ) : Option (List Int) × World Λ :=
  if env.NewArray_ok && decide (0 ≤ length) then
    (some (List.replicate length.toNat 0),
      { w with trace := Event.NewShortArray length :: w.trace })
  else (none, w)

/-- Elements `0 .. len-1` of `array` replaced by those of `src` (used only when `src` covers
them; a position it does not cover would keep its value). -/
def setRegion (array : List Int) (len : Int) (src : List Int) : List Int :=
  (List.range array.length).map fun (i : Nat) =>
    if Int.ofNat i < len then src.getD i (array.getD i 0) else array.getD i 0

/-- `env->SetByteArrayRegion(array, 0, len, reinterpret_cast<jbyte*>(buffer.data()))`: `len`
bytes are read from the buffer, which holds two bytes per sample; reading more than it holds
is undefined and gives no array. -/
def SetByteArrayRegion (array : List Int) (len : Int) (buffer : List Int) (w : World Λ) :
    Option (List Int) × World Λ :=
  if len ≤ 2 * (buffer.length : Int) then
    (some (setRegion array len (buffer.flatMap shortBytes)),
      { w with trace := Event.SetByteArrayRegion len :: w.trace })
  else (none, { w with trace := Event.SetByteArrayRegion len :: w.trace })

/-- `env->SetShortArrayRegion(array, 0, len, buffer.data())`: `len` samples are read from the
buffer; reading more than it holds is undefined and gives no array. -/
def SetShortArrayRegion (array : List Int) (len : Int) (buffer : List Int) (w : World Λ) :
    Option (List Int) × World Λ :=
  if len ≤ (buffer.length : Int) then
    (some (setRegion array len buffer),
      { w with trace := Event.SetShortArrayRegion len :: w.trace })
  else (none, { w with trace := Event.SetShortArrayRegion len :: w.trace })

/-! ## `class OpusDecoderWrapper` -/

namespace OpusDecoderWrapper

/-- The constructor `OpusDecoderWrapper(int sampleRate, int channels)`. -/
def ctor (L : OpusLib Λ) (sampleRate channels : Int) (w : World Λ) :
    OpusDecoderWrapper × World Λ :=
  let maxFrameSize : Int := 48000 * 120 / 1000
  let r := L.opus_decoder_create w.lib sampleRate channels
  let error := r.1.2
  let w1 : World Λ :=
    { w with
      lib := r.2
      trace := Event.opus_decoder_create sampleRate channels r.1.1 error :: w.trace }
  if error ≠ L.OPUS_OK then
    (⟨none, sampleRate, channels, maxFrameSize⟩, w1)
  else
    (⟨r.1.1, sampleRate, channels, maxFrameSize⟩, w1)

/-- The destructor `~OpusDecoderWrapper()`. -/
def dtor (L : OpusLib Λ) (self : OpusDecoderWrapper) (w : World Λ) : World Λ :=
  match self.decoder with
  | some d =>
    { w with
      lib := L.opus_decoder_destroy w.lib d
      trace := Event.opus_decoder_destroy d :: w.trace }
  | none => w

/-- `bool isValid() const`. -/
def isValid (self : OpusDecoderWrapper) : Bool :=
  self.decoder.isSome

/-- `int decode(const unsigned char* encodedData, int encodedSize, short* pcmOut,
int frameSize)`.  The second component of the result is what was stored through `pcmOut`. -/
def decode (L : OpusLib Λ) (self : OpusDecoderWrapper) (encodedData : Option (List Int))
    (encodedSize frameSize : Int) (w : World Λ) : (Int × List Int) × World Λ :=
  match self.decoder with
  | none => ((L.OPUS_INVALID_STATE, []), w)
  | some d =>
    if encodedData.isNone && encodedSize != 0 then
      ((L.OPUS_BAD_ARG, []), w)
    else
      let r := L.opus_decode w.lib d encodedData encodedSize frameSize 0
      (r.1,
        { w with
          lib := r.2
          trace := Event.opus_decode d encodedData encodedSize frameSize r.1.1 :: w.trace })

/-- `int getSampleRate() const`. -/
def getSampleRate (self : OpusDecoderWrapper) : Int := self.sampleRate

/-- `int getChannels() const`. -/
def getChannels (self : OpusDecoderWrapper) : Int := self.channels

/-- `int getMaxFrameSize() const`. -/
def getMaxFrameSize (self : OpusDecoderWrapper) : Int := self.maxFrameSize

end OpusDecoderWrapper

/-- `globalDecoder.reset()` on the `std::unique_ptr`: the old wrapper, if any, is destroyed
and the pointer is null afterwards. -/
def globalDecoder_reset (L : OpusLib Λ) (w : World Λ) : World Λ :=
  match w.globalDecoder with
  | some g => { OpusDecoderWrapper.dtor L g w with globalDecoder := none }
  | none => w

/-! ## JNI entry points: the singleton session -/

/-- `Java_com_wabycheck_ond_MainActivity_initOpusDecoder`. -/
def Java_com_wabycheck_ond_MainActivity_initOpusDecoder (L : OpusLib Λ)
    (sample_rate channels : Int) (w : World Λ) : World Λ :=
  let w1 := globalDecoder_reset L w
  let c := OpusDecoderWrapper.ctor L sample_rate channels w1
  let w2 : World Λ := { c.2 with globalDecoder := some c.1 }
  if !c.1.isValid then globalDecoder_reset L w2 else w2

/-- `Java_com_wabycheck_ond_MainActivity_decodeOpus`. -/
def Java_com_wabycheck_ond_MainActivity_decodeOpus (L : OpusLib Λ) (env : JNIEnv)
    (encoded_data : List Int) (frame_size : Int) (w : World Λ) : JArrayRet × World Λ :=
  match w.globalDecoder with
  | none => (JArrayRet.null, w)
  | some g =>
    if !g.isValid then (JArrayRet.null, w)
    else
      let encodedLength : Int := encoded_data.length
      if encodedLength ≤ 0 then (JArrayRet.null, w)
      else if !env.GetByteArrayElements_ok then (JArrayRet.null, w)
      else
        let maxSamples := if frame_size > 0 then frame_size else g.getMaxFrameSize
        match vector_short env (wrap32 (maxSamples * g.getChannels)) w with
        | (none, w0) => (JArrayRet.abort, w0)
        | (some pcmBuffer, w0) =>
          let r := g.decode L (some encoded_data) encodedLength maxSamples w0
          let pcmBuffer1 := storePcm pcmBuffer r.1.2
          let decodedSamples := r.1.1
          if decodedSamples < 0 then (JArrayRet.null, r.2)
          else
            let outputSize := wrap32 (wrap32 (decodedSamples * g.getChannels) * 2)
            match NewByteArray env outputSize r.2 with
            | (none, w1) => (JArrayRet.null, w1)
            | (some output, w1) =>
              match SetByteArrayRegion output outputSize pcmBuffer1 w1 with
              | (none, w2) => (JArrayRet.abort, w2)
              | (some filled, w2) => (JArrayRet.array filled, w2)

/-- `Java_com_wabycheck_ond_MainActivity_destroyOpusDecoder`. -/
def Java_com_wabycheck_ond_MainActivity_destroyOpusDecoder (L : OpusLib Λ) (w : World Λ) :
    World Λ :=
  globalDecoder_reset L w

/-- `Java_com_wabycheck_ond_AudioStreamService_initOpusDecoder`. -/
def Java_com_wabycheck_ond_AudioStreamService_initOpusDecoder (L : OpusLib Λ)
    (sample_rate channels : Int) (w : World Λ) : World Λ :=
  let w1 := globalDecoder_reset L w
  let c := OpusDecoderWrapper.ctor L sample_rate channels w1
  let w2 : World Λ := { c.2 with globalDecoder := some c.1 }
  if !c.1.isValid then globalDecoder_reset L w2 else w2

/-- `Java_com_wabycheck_ond_AudioStreamService_decodeOpus` (frame size taken from the
packet). -/
def Java_com_wabycheck_ond_AudioStreamService_decodeOpus (L : OpusLib Λ) (env : JNIEnv)
    (encoded_data : List Int) (frame_size : Int) (w : World Λ) : JArrayRet × World Λ :=
  match w.globalDecoder with
  | none => (JArrayRet.null, w)
  | some g =>
    if !g.isValid then (JArrayRet.null, w)
    else
      let encodedLength : Int := encoded_data.length
      if encodedLength ≤ 0 then (JArrayRet.null, w)
      else if !env.GetByteArrayElements_ok then (JArrayRet.null, w)
      else
        let n := L.opus_packet_get_nb_samples encoded_data encodedLength g.getSampleRate
        let wq : World Λ :=
          { w with
            trace := Event.opus_packet_get_nb_samples encoded_data encodedLength
              g.getSampleRate n :: w.trace }
        let packetSamples :=
          if n ≤ 0 then (if frame_size > 0 then frame_size else g.getMaxFrameSize) else n
        match vector_short env (wrap32 (packetSamples * g.getChannels)) wq with
        | (none, w0) => (JArrayRet.abort, w0)
        | (some pcmBuffer, w0) =>
          let r := g.decode L (some encoded_data) encodedLength packetSamples w0
          let pcmBuffer1 := storePcm pcmBuffer r.1.2
          let decodedSamples := r.1.1
          if decodedSamples < 0 then (JArrayRet.null, r.2)
          else
            let outputSize := wrap32 (wrap32 (decodedSamples * g.getChannels) * 2)
            match NewByteArray env outputSize r.2 with
            | (none, w1) => (JArrayRet.null, w1)
            | (some output, w1) =>
              match SetByteArrayRegion output outputSize pcmBuffer1 w1 with
              | (none, w2) => (JArrayRet.abort, w2)
              | (some filled, w2) => (JArrayRet.array filled, w2)

/-- `Java_com_wabycheck_ond_AudioStreamService_decodePlc`. -/
def Java_com_wabycheck_ond_AudioStreamService_decodePlc (L : OpusLib Λ) (env : JNIEnv)
    (frame_size : Int) (w : World Λ) : JArrayRet × World Λ :=
  match w.globalDecoder with
  | none => (JArrayRet.null, w)
  | some g =>
    if !g.isValid then (JArrayRet.null, w)
    else
      let maxSamples := if frame_size > 0 then frame_size else g.getMaxFrameSize
      match vector_short env (wrap32 (maxSamples * g.getChannels)) w with
      | (none, w0) => (JArrayRet.abort, w0)
      | (some pcmBuffer, w0) =>
        let r := g.decode L none 0 maxSamples w0
        let pcmBuffer1 := storePcm pcmBuffer r.1.2
        let decodedSamples := r.1.1
        if decodedSamples ≤ 0 then (JArrayRet.null, r.2)
        else
          let outputSize := wrap32 (wrap32 (decodedSamples * g.getChannels) * 2)
          match NewByteArray env outputSize r.2 with
          | (none, w1) => (JArrayRet.null, w1)
          | (some output, w1) =>
            match SetByteArrayRegion output outputSize pcmBuffer1 w1 with
            | (none, w2) => (JArrayRet.abort, w2)
            | (some filled, w2) => (JArrayRet.array filled, w2)

/-- `Java_com_wabycheck_ond_AudioStreamService_destroyOpusDecoder`. -/
def Java_com_wabycheck_ond_AudioStreamService_destroyOpusDecoder (L : OpusLib Λ)
    (w : World Λ) : World Λ :=
  globalDecoder_reset L w

/-! ## JNI entry points: sessions by handle, packet queries -/

/-- `Java_com_wabycheck_ond_MainActivity_createOpusDecoder`.  The wrapper is given the next
free address; when it is not valid the `unique_ptr` destroys it on return. -/
def Java_com_wabycheck_ond_MainActivity_createOpusDecoder (L : OpusLib Λ)
    (sample_rate channels : Int) (w : World Λ) : Int × World Λ :=
  let c := OpusDecoderWrapper.ctor L sample_rate channels w
  if !c.1.isValid then
    (0, OpusDecoderWrapper.dtor L c.1 c.2)
  else
    let address : Int := Int.ofNat (c.2.heapNext + 1)
    (address,
      { c.2 with
        heap := (address, c.1) :: c.2.heap
        heapNext := c.2.heapNext + 1 })

/-- `Java_com_wabycheck_ond_MainActivity_decodeOpusPacket`.  A `decoder_ptr` that is not the
address of a live wrapper, and `SetShortArrayRegion` on a null array, are undefined; both
are the outcome `abort`. -/
def Java_com_wabycheck_ond_MainActivity_decodeOpusPacket (L : OpusLib Λ) (env : JNIEnv)
    (decoder_ptr : Int) (encoded_data : List Int) (w : World Λ) : JArrayRet × World Λ :=
  if decoder_ptr == 0 then (JArrayRet.null, w)
  else
    match w.heap.lookup decoder_ptr with
    | none => (JArrayRet.abort, w)
    | some decoder =>
      let encodedLength : Int := encoded_data.length
      if encodedLength == 0 then
        let frameSize := Int.tdiv decoder.getSampleRate 50
        match vector_short env (wrap32 (frameSize * decoder.getChannels)) w with
        | (none, w0) => (JArrayRet.abort, w0)
        | (some pcmBuffer, w0) =>
          let r := decoder.decode L none 0 frameSize w0
          let pcmBuffer1 := storePcm pcmBuffer r.1.2
          let decodedSamples := r.1.1
          if decodedSamples > 0 then
            let n := wrap32 (decodedSamples * decoder.getChannels)
            match NewShortArray env n r.2 with
            | (none, w1) => (JArrayRet.abort, w1)
            | (some result, w1) =>
              match SetShortArrayRegion result n pcmBuffer1 w1 with
              | (none, w2) => (JArrayRet.abort, w2)
              | (some filled, w2) => (JArrayRet.array filled, w2)
          else (JArrayRet.null, r.2)
      else if !env.GetByteArrayElements_ok then (JArrayRet.null, w)
      else
        let samples :=
          L.opus_packet_get_nb_samples encoded_data encodedLength decoder.getSampleRate
        let wq : World Λ :=
          { w with
            trace := Event.opus_packet_get_nb_samples encoded_data encodedLength
              decoder.getSampleRate samples :: w.trace }
        if samples ≤ 0 then (JArrayRet.null, wq)
        else
          match vector_short env (wrap32 (samples * decoder.getChannels)) wq with
          | (none, w0) => (JArrayRet.abort, w0)
          | (some pcmBuffer, w0) =>
            let r := decoder.decode L (some encoded_data) encodedLength samples w0
            let pcmBuffer1 := storePcm pcmBuffer r.1.2
            let decodedSamples := r.1.1
            if decodedSamples ≤ 0 then (JArrayRet.null, r.2)
            else
              let n := wrap32 (decodedSamples * decoder.getChannels)
              match NewShortArray env n r.2 with
              | (none, w1) => (JArrayRet.abort, w1)
              | (some result, w1) =>
                match SetShortArrayRegion result n pcmBuffer1 w1 with
                | (none, w2) => (JArrayRet.abort, w2)
                | (some filled, w2) => (JArrayRet.array filled, w2)

/-- `Java_com_wabycheck_ond_MainActivity_getOpusPacketSamples`. -/
def Java_com_wabycheck_ond_MainActivity_getOpusPacketSamples (L : OpusLib Λ) (env : JNIEnv)
    (packet_data : List Int) (sample_rate : Int) (w : World Λ) : Int × World Λ :=
  let length : Int := packet_data.length
  if length ≤ 0 then (-1, w)
  else if !env.GetByteArrayElements_ok then (-1, w)
  else
    let samples := L.opus_packet_get_nb_samples packet_data length sample_rate
    (samples,
      { w with
        trace := Event.opus_packet_get_nb_samples packet_data length sample_rate samples
          :: w.trace })

/-- `Java_com_wabycheck_ond_MainActivity_getOpusPacketChannels`. -/
def Java_com_wabycheck_ond_MainActivity_getOpusPacketChannels (L : OpusLib Λ) (env : JNIEnv)
    (packet_data : List Int) (w : World Λ) : Int × World Λ :=
  let length : Int := packet_data.length
  if length ≤ 0 then (-1, w)
  else if !env.GetByteArrayElements_ok then (-1, w)
  else
    let channels := L.opus_packet_get_nb_channels packet_data
    (channels,
      { w with trace := Event.opus_packet_get_nb_channels packet_data channels :: w.trace })

/-! ## Runs of the singleton interface -/

/-- The process at start-up: `globalDecoder` is null, nothing has been handed out. -/
def World.initial (lib : Λ) : World Λ :=
  ⟨lib, [], none, [], 0⟩

/-- One call of a singleton entry point, with its arguments. -/
inductive SingletonOp where
  | initMain (sample_rate channels : Int)
  | initService (sample_rate channels : Int)
  | decode (env : JNIEnv) (encoded_data : List Int) (frame_size : Int)
  | decodeAutosized (env : JNIEnv) (encoded_data : List Int) (frame_size : Int)
  | decodePlc (env : JNIEnv) (frame_size : Int)
  | destroyMain
  | destroyService
  deriving DecidableEq, Repr

/-- Whether the call is one of the two `initOpusDecoder` entry points. -/
def SingletonOp.isInit : SingletonOp → Bool
  | SingletonOp.initMain _ _ => true
  | SingletonOp.initService _ _ => true
  | _ => false

/-- The state after one singleton call. -/
def step (L : OpusLib Λ) (w : World Λ) : SingletonOp → World Λ
  | SingletonOp.initMain sr ch => Java_com_wabycheck_ond_MainActivity_initOpusDecoder L sr ch w
  | SingletonOp.initService sr ch =>
    Java_com_wabycheck_ond_AudioStreamService_initOpusDecoder L sr ch w
  | SingletonOp.decode env data fs =>
    (Java_com_wabycheck_ond_MainActivity_decodeOpus L env data fs w).2
  | SingletonOp.decodeAutosized env data fs =>
    (Java_com_wabycheck_ond_AudioStreamService_decodeOpus L env data fs w).2
  | SingletonOp.decodePlc env fs =>
    (Java_com_wabycheck_ond_AudioStreamService_decodePlc L env fs w).2
  | SingletonOp.destroyMain => Java_com_wabycheck_ond_MainActivity_destroyOpusDecoder L w
  | SingletonOp.destroyService =>
    Java_com_wabycheck_ond_AudioStreamService_destroyOpusDecoder L w

/-- The state after a sequence of singleton calls.  A call that ends in `abort` ends the
process; the fold goes on from the state it left, so every state a real run passes through
is among the states of `run`. -/
def run (L : OpusLib Λ) (w : World Λ) (ops : List SingletonOp) : World Λ :=
  ops.foldl (step L) w

/-- The events a call added: the part of the trace of `w1` in front of the trace of `w`. -/
def newEvents (w w1 : World Λ) : List Event :=
  w1.trace.take (w1.trace.length - w.trace.length)

/-! ## A small concrete library -/

/-- A toy library.  Its state counts the decoders created.  `opus_decoder_create` accepts
the five Opus rates with one or two channels.  A packet states its sample count in its first
byte; `opus_decode` answers that count when it fits `frame_size`, `-2` when it does not,
`-4` for an empty packet, and for absent data `min plc frame_size`.  It stores silence. -/
def toyLib (plc : Int) : OpusLib Nat where
  OPUS_OK := 0
  OPUS_BAD_ARG := -1
  OPUS_INVALID_STATE := -6
  opus_decoder_create := fun n Fs channels =>
    if (Fs = 8000 ∨ Fs = 12000 ∨ Fs = 16000 ∨ Fs = 24000 ∨ Fs = 48000) ∧
        (channels = 1 ∨ channels = 2) then ((some (n + 1), 0), n + 1)
    else ((none, -1), n)
  opus_decoder_destroy := fun n _ => n
  opus_decode := fun n _ data _ frame_size _ =>
    match data with
    | none => ((min plc frame_size, []), n)
    | some [] => ((-4, []), n)
    | some (b :: _) => if b ≤ frame_size then ((b, []), n) else ((-2, []), n)
  opus_packet_get_nb_samples := fun packet _ _ =>
    match packet with
    | [] => -4
    | b :: _ => if 0 < b then b else -4
  opus_packet_get_nb_channels := fun _ => 1

/-- A Java runtime in which every buffer request succeeds. -/
def envOk : JNIEnv := ⟨true, true, true⟩

/-! ## Vocabulary for stating properties -/

/-- The state after a call: a new library state and further events in front of the trace. -/
def World.after (w : World Λ) (lib : Λ) (events : List Event) : World Λ :=
  { w with lib := lib, trace := events ++ w.trace }

/-- The Java byte array an entry point returns: a fresh array of `outputSize` bytes filled
from the PCM buffer. -/
def byteArrayOf (outputSize : Int) (pcmBuffer : List Int) : List Int :=
  setRegion (List.replicate outputSize.toNat 0) outputSize (pcmBuffer.flatMap shortBytes)

/-- The Java short array an entry point returns: a fresh array of `n` samples filled from
the PCM buffer. -/
def shortArrayOf (n : Int) (pcmBuffer : List Int) : List Int :=
  setRegion (List.replicate n.toNat 0) n pcmBuffer

/-- Membership in the range of a 32-bit signed integer. -/
def isInt32 (x : Int) : Prop :=
  -2147483648 ≤ x ∧ x < 2147483648

instance (x : Int) : Decidable (isInt32 x) :=
  inferInstanceAs (Decidable (-2147483648 ≤ x ∧ x < 2147483648))

/-- The calls of the codec's decode in a list of events, newest first: decoder, data,
length, frame size, returned value. -/
def decodeCalls : List Event → List (Nat × Option (List Int) × Int × Int × Int)
  | [] => []
  | Event.opus_decode st data len frame_size ret :: es =>
    (st, data, len, frame_size, ret) :: decodeCalls es
  | _ :: es => decodeCalls es

/-- The sizes of the PCM buffers constructed in a list of events. -/
def vectorSizes : List Event → List Int
  | [] => []
  | Event.vector_short n :: es => n :: vectorSizes es
  | _ :: es => vectorSizes es

/-- Whether the event constructs or writes a Java output array. -/
def Event.isOutput : Event → Bool
  | Event.NewByteArray _ => true
  | Event.NewShortArray _ => true
  | Event.SetByteArrayRegion _ => true
  | Event.SetShortArrayRegion _ => true
  | _ => false

/-- One call of one of the four decode entry points, with its arguments. -/
inductive DecodeCall where
  | decode (env : JNIEnv) (encoded_data : List Int) (frame_size : Int)
  | decodeAutosized (env : JNIEnv) (encoded_data : List Int) (frame_size : Int)
  | decodePlc (env : JNIEnv) (frame_size : Int)
  | decodeByHandle (env : JNIEnv) (decoder_ptr : Int) (encoded_data : List Int)
  deriving DecidableEq, Repr

namespace DecodeCall

/-- The entry point the call stands for. -/
def run (L : OpusLib Λ) (w : World Λ) : DecodeCall → JArrayRet × World Λ
  | decode env data fs => Java_com_wabycheck_ond_MainActivity_decodeOpus L env data fs w
  | decodeAutosized env data fs =>
    Java_com_wabycheck_ond_AudioStreamService_decodeOpus L env data fs w
  | decodePlc env fs => Java_com_wabycheck_ond_AudioStreamService_decodePlc L env fs w
  | decodeByHandle env ptr data =>
    Java_com_wabycheck_ond_MainActivity_decodeOpusPacket L env ptr data w

/-- The session the call works on: the singleton, or the wrapper behind the handle. -/
def session (w : World Λ) : DecodeCall → Option OpusDecoderWrapper
  | decodeByHandle _ ptr _ => if ptr == 0 then none else w.heap.lookup ptr
  | _ => w.globalDecoder

/-- The frame size the entry point settles on before it constructs the PCM buffer
(`maxSamples`, `packetSamples`, `frameSize` and `samples` in the source). -/
def frameSize (L : OpusLib Λ) (g : OpusDecoderWrapper) : DecodeCall → Int
  | decode _ _ fs => if fs > 0 then fs else g.getMaxFrameSize
  | decodeAutosized _ data fs =>
    if L.opus_packet_get_nb_samples data data.length g.getSampleRate ≤ 0 then
      (if fs > 0 then fs else g.getMaxFrameSize)
    else L.opus_packet_get_nb_samples data data.length g.getSampleRate
  | decodePlc _ fs => if fs > 0 then fs else g.getMaxFrameSize
  | decodeByHandle _ _ data =>
    if data.length = 0 then Int.tdiv g.getSampleRate 50
    else L.opus_packet_get_nb_samples data data.length g.getSampleRate

/-- Whether the call gets past its input checks: the encoded bytes are non-empty and
acquired (decode by handle takes empty input as a lost packet; decode-PLC has no input). -/
def inputReady : DecodeCall → Bool
  | decode env data _ => !data.isEmpty && env.GetByteArrayElements_ok
  | decodeAutosized env data _ => !data.isEmpty && env.GetByteArrayElements_ok
  | decodePlc _ _ => true
  | decodeByHandle env _ data => data.isEmpty || env.GetByteArrayElements_ok

/-- Elements of the returned array per 16-bit sample: two `jbyte`s for the singleton entry
points, one `jshort` for decode by handle. -/
def elementsPerSample : DecodeCall → Int
  | decodeByHandle _ _ _ => 1
  | _ => 2

end DecodeCall

namespace DecodeCall

/-- The Java runtime behaviour the call is made under. -/
def env : DecodeCall → JNIEnv
  | decode e _ _ => e
  | decodeAutosized e _ _ => e
  | decodePlc e _ => e
  | decodeByHandle e _ _ => e

/-- The data pointer the entry point hands to `OpusDecoderWrapper::decode`. -/
def codecData : DecodeCall → Option (List Int)
  | decode _ data _ => some data
  | decodeAutosized _ data _ => some data
  | decodePlc _ _ => none
  | decodeByHandle _ _ data => if data.length = 0 then none else some data

/-- The data length the entry point hands to `OpusDecoderWrapper::decode`. -/
def codecLen : DecodeCall → Int
  | decode _ data _ => data.length
  | decodeAutosized _ data _ => data.length
  | decodePlc _ _ => 0
  | decodeByHandle _ _ data => data.length

/-- The packet query the entry point makes before it decodes, if any. -/
def queryEvents (L : OpusLib Λ) (g : OpusDecoderWrapper) : DecodeCall → List Event
  | decodeAutosized _ data _ =>
    [Event.opus_packet_get_nb_samples data data.length g.getSampleRate
      (L.opus_packet_get_nb_samples data data.length g.getSampleRate)]
  | decodeByHandle _ _ data =>
    if data.length = 0 then []
    else
      [Event.opus_packet_get_nb_samples data data.length g.getSampleRate
        (L.opus_packet_get_nb_samples data data.length g.getSampleRate)]
  | _ => []

/-- Whether the entry point treats a decoded count of zero as a failure (`<= 0` against
`< 0` in the source). -/
def zeroFails : DecodeCall → Bool
  | decode _ _ _ => false
  | decodeAutosized _ _ _ => false
  | _ => true

/-- The length the entry point gives the output array for a decoded count `s`. -/
def outputLen (s channels : Int) : DecodeCall → Int
  | decodeByHandle _ _ _ => wrap32 (s * channels)
  | _ => wrap32 (wrap32 (s * channels) * 2)

/-- The output array of the given length filled from the PCM buffer. -/
def outputArray (m : Int) (pcmBuffer : List Int) : DecodeCall → List Int
  | decodeByHandle _ _ _ => shortArrayOf m pcmBuffer
  | _ => byteArrayOf m pcmBuffer

/-- The events of constructing and filling the output array, newest first. -/
def outputEvents (m : Int) : DecodeCall → List Event
  | decodeByHandle _ _ _ => [Event.SetShortArrayRegion m, Event.NewShortArray m]
  | _ => [Event.SetByteArrayRegion m, Event.NewByteArray m]

/-- What the entry point returns when the output array cannot be constructed. -/
def allocFailure : DecodeCall → JArrayRet
  | decodeByHandle _ _ _ => JArrayRet.abort
  | _ => JArrayRet.null

/-- The common shape of the four entry points once the session is valid with decoder `d`,
the input is ready and the PCM buffer is constructed. -/
def outcome (L : OpusLib Λ) (w : World Λ) (g : OpusDecoderWrapper) (d : Nat)
    (call : DecodeCall) : JArrayRet × World Λ :=
  let f := call.frameSize L g
  let r := L.opus_decode w.lib d call.codecData call.codecLen f 0
  let base :=
    [Event.opus_decode d call.codecData call.codecLen f r.1.1,
      Event.vector_short (wrap32 (f * g.channels))] ++ call.queryEvents L g
  let m := call.outputLen r.1.1 g.channels
  if r.1.1 < 0 ∨ (call.zeroFails = true ∧ r.1.1 = 0) then (JArrayRet.null, w.after r.2 base)
  else if call.env.NewArray_ok = true ∧ 0 ≤ m then
    if m ≤ wrap32 (f * g.channels) * call.elementsPerSample then
      (JArrayRet.array (call.outputArray m
          (storePcm (List.replicate (wrap32 (f * g.channels)).toNat 0) r.1.2)),
        w.after r.2 (call.outputEvents m ++ base))
    else (JArrayRet.abort, w.after r.2 (call.outputEvents m ++ base))
  else (call.allocFailure, w.after r.2 base)

end DecodeCall

/-- States the singleton interface can reach from start-up. -/
def Reachable (L : OpusLib Λ) (w : World Λ) : Prop :=
  ∃ (lib : Λ) (ops : List SingletonOp), w = run L (World.initial lib) ops

/-! ## Reference definitions -/

/-- Reference value of `OpusDecoderWrapper::decode`, written after the specification: without
a codec handle the invalid-state code; else, for absent data of non-zero size, the
bad-argument code; else whatever the codec's decode returns. -/
def decode_reference (L : OpusLib Λ) (session : OpusDecoderWrapper)
    (encodedData : Option (List Int)) (encodedSize frameSize : Int) (w : World Λ) : Int :=
  if session.decoder = none then L.OPUS_INVALID_STATE
  else if encodedData = none ∧ encodedSize ≠ 0 then L.OPUS_BAD_ARG
  else
    match session.decoder with
    | some d => (L.opus_decode w.lib d encodedData encodedSize frameSize 0).1.1
    | none => L.OPUS_INVALID_STATE

/-- The toy library after `initOpusDecoder(48000, 2)` at start-up. -/
def toyWorld (plc : Int) : World Nat :=
  Java_com_wabycheck_ond_MainActivity_initOpusDecoder (toyLib plc) 48000 2 (World.initial 0)

/-- The wrapper `toyWorld` holds in the singleton. -/
def toySession : OpusDecoderWrapper :=
  ⟨some 1, 48000, 2, 5760⟩

/-! ## Properties -/

/-! ## Symbolic execution of the entry points -/

theorem length_pos_cast {data : List Int} (hne : data ≠ []) : ¬ ((data.length : Int) ≤ 0) := by
  have := List.length_pos.mpr hne
  omega

theorem storePcm_length (buffer pcm : List Int) :
    (storePcm buffer pcm).length = buffer.length := by
  simp only [storePcm, List.length_append, List.length_take, List.length_drop]
  omega

theorem vector_available_nonneg (env : JNIEnv) (n : Int)
    (h : vector_available env n = true) : 0 ≤ n := by
  simp only [vector_available, Bool.and_eq_true, decide_eq_true_eq] at h
  exact h.1

theorem buffer_length_cast (n : Int) (pcm : List Int) (hn : 0 ≤ n) :
    ((storePcm (List.replicate n.toNat 0) pcm).length : Int) = n := by
  rw [storePcm_length, List.length_replicate, Int.toNat_of_nonneg hn]

/-- Singleton decode past its checks: one buffer, one codec call, then the output array. -/
theorem decodeOpus_run (L : OpusLib Λ) (env : JNIEnv) (data : List Int) (fs : Int)
    (w : World Λ) (g : OpusDecoderWrapper) (d : Nat) (f m : Int)
    (r : (Int × List Int) × Λ)
    (hg : w.globalDecoder = some g) (hd : g.decoder = some d) (hne : data ≠ [])
    (hok : env.GetByteArrayElements_ok = true)
    (hf : f = if fs > 0 then fs else g.maxFrameSize)
    (hv : vector_available env (wrap32 (f * g.channels)) = true)
    (hr : L.opus_decode w.lib d (some data) data.length f 0 = r)
    (hm : m = wrap32 (wrap32 (r.1.1 * g.channels) * 2)) :
    Java_com_wabycheck_ond_MainActivity_decodeOpus L env data fs w =
      if r.1.1 < 0 then
        (JArrayRet.null, w.after r.2
          [Event.opus_decode d (some data) data.length f r.1.1,
            Event.vector_short (wrap32 (f * g.channels))])
      else if env.NewArray_ok = true ∧ 0 ≤ m then
        if m ≤ wrap32 (f * g.channels) * 2 then
          (JArrayRet.array (byteArrayOf m
              (storePcm (List.replicate (wrap32 (f * g.channels)).toNat 0) r.1.2)),
            w.after r.2
              [Event.SetByteArrayRegion m, Event.NewByteArray m,
                Event.opus_decode d (some data) data.length f r.1.1,
            Event.vector_short (wrap32 (f * g.channels))])
        else
          (JArrayRet.abort, w.after r.2
            [Event.SetByteArrayRegion m, Event.NewByteArray m,
              Event.opus_decode d (some data) data.length f r.1.1,
            Event.vector_short (wrap32 (f * g.channels))])
      else
        (JArrayRet.null, w.after r.2
          [Event.opus_decode d (some data) data.length f r.1.1,
            Event.vector_short (wrap32 (f * g.channels))]) := by
  have hn := vector_available_nonneg env _ hv
  have hbl := buffer_length_cast (wrap32 (f * g.channels)) r.1.2 hn
  have hlen := length_pos_cast hne
  subst hf
  subst hr hm
  unfold Java_com_wabycheck_ond_MainActivity_decodeOpus
  simp only [hg, OpusDecoderWrapper.isValid, hd, vector_short, hv,
    OpusDecoderWrapper.getMaxFrameSize, OpusDecoderWrapper.getChannels,
    OpusDecoderWrapper.getSampleRate, OpusDecoderWrapper.decode, NewByteArray, SetByteArrayRegion, byteArrayOf,
    World.after, hlen, hok]
  simp
  split_ifs <;> first | omega | (simp_all <;> omega)

/-- Singleton decode-autosized past its checks. -/
theorem decodeAutosized_run (L : OpusLib Λ) (env : JNIEnv) (data : List Int) (fs N : Int)
    (w : World Λ) (g : OpusDecoderWrapper) (d : Nat) (f m : Int)
    (r : (Int × List Int) × Λ)
    (hg : w.globalDecoder = some g) (hd : g.decoder = some d) (hne : data ≠ [])
    (hok : env.GetByteArrayElements_ok = true)
    (hN : N = L.opus_packet_get_nb_samples data data.length g.sampleRate)
    (hf : f = if N ≤ 0 then (if fs > 0 then fs else g.maxFrameSize) else N)
    (hv : vector_available env (wrap32 (f * g.channels)) = true)
    (hr : L.opus_decode w.lib d (some data) data.length f 0 = r)
    (hm : m = wrap32 (wrap32 (r.1.1 * g.channels) * 2)) :
    Java_com_wabycheck_ond_AudioStreamService_decodeOpus L env data fs w =
      if r.1.1 < 0 then
        (JArrayRet.null, w.after r.2
          [Event.opus_decode d (some data) data.length f r.1.1,
            Event.vector_short (wrap32 (f * g.channels)),
            Event.opus_packet_get_nb_samples data data.length g.sampleRate N])
      else if env.NewArray_ok = true ∧ 0 ≤ m then
        if m ≤ wrap32 (f * g.channels) * 2 then
          (JArrayRet.array (byteArrayOf m
              (storePcm (List.replicate (wrap32 (f * g.channels)).toNat 0) r.1.2)),
            w.after r.2
              [Event.SetByteArrayRegion m, Event.NewByteArray m,
                Event.opus_decode d (some data) data.length f r.1.1,
            Event.vector_short (wrap32 (f * g.channels)),
            Event.opus_packet_get_nb_samples data data.length g.sampleRate N])
        else
          (JArrayRet.abort, w.after r.2
            [Event.SetByteArrayRegion m, Event.NewByteArray m,
              Event.opus_decode d (some data) data.length f r.1.1,
            Event.vector_short (wrap32 (f * g.channels)),
            Event.opus_packet_get_nb_samples data data.length g.sampleRate N])
      else
        (JArrayRet.null, w.after r.2
          [Event.opus_decode d (some data) data.length f r.1.1,
            Event.vector_short (wrap32 (f * g.channels)),
            Event.opus_packet_get_nb_samples data data.length g.sampleRate N]) := by
  have hn := vector_available_nonneg env _ hv
  have hbl := buffer_length_cast (wrap32 (f * g.channels)) r.1.2 hn
  have hlen := length_pos_cast hne
  subst hN hf
  subst hr hm
  unfold Java_com_wabycheck_ond_AudioStreamService_decodeOpus
  simp only [hg, OpusDecoderWrapper.isValid, hd, vector_short, hv,
    OpusDecoderWrapper.getMaxFrameSize, OpusDecoderWrapper.getChannels,
    OpusDecoderWrapper.getSampleRate, OpusDecoderWrapper.decode, NewByteArray, SetByteArrayRegion, byteArrayOf,
    World.after, hlen, hok]
  simp
  split_ifs <;> first | omega | (simp_all <;> omega)

/-- Singleton decode-PLC on a valid session. -/
theorem decodePlc_run (L : OpusLib Λ) (env : JNIEnv) (fs : Int)
    (w : World Λ) (g : OpusDecoderWrapper) (d : Nat) (f m : Int)
    (r : (Int × List Int) × Λ)
    (hg : w.globalDecoder = some g) (hd : g.decoder = some d)
    (hf : f = if fs > 0 then fs else g.maxFrameSize)
    (hv : vector_available env (wrap32 (f * g.channels)) = true)
    (hr : L.opus_decode w.lib d none 0 f 0 = r)
    (hm : m = wrap32 (wrap32 (r.1.1 * g.channels) * 2)) :
    Java_com_wabycheck_ond_AudioStreamService_decodePlc L env fs w =
      if r.1.1 ≤ 0 then
        (JArrayRet.null, w.after r.2
          [Event.opus_decode d none 0 f r.1.1,
            Event.vector_short (wrap32 (f * g.channels))])
      else if env.NewArray_ok = true ∧ 0 ≤ m then
        if m ≤ wrap32 (f * g.channels) * 2 then
          (JArrayRet.array (byteArrayOf m
              (storePcm (List.replicate (wrap32 (f * g.channels)).toNat 0) r.1.2)),
            w.after r.2
              [Event.SetByteArrayRegion m, Event.NewByteArray m,
                Event.opus_decode d none 0 f r.1.1,
            Event.vector_short (wrap32 (f * g.channels))])
        else
          (JArrayRet.abort, w.after r.2
            [Event.SetByteArrayRegion m, Event.NewByteArray m,
              Event.opus_decode d none 0 f r.1.1,
            Event.vector_short (wrap32 (f * g.channels))])
      else
        (JArrayRet.null, w.after r.2
          [Event.opus_decode d none 0 f r.1.1,
            Event.vector_short (wrap32 (f * g.channels))]) := by
  have hn := vector_available_nonneg env _ hv
  have hbl := buffer_length_cast (wrap32 (f * g.channels)) r.1.2 hn
  subst hf
  subst hr hm
  unfold Java_com_wabycheck_ond_AudioStreamService_decodePlc
  simp only [hg, OpusDecoderWrapper.isValid, hd, vector_short, hv,
    OpusDecoderWrapper.getMaxFrameSize, OpusDecoderWrapper.getChannels,
    OpusDecoderWrapper.getSampleRate, OpusDecoderWrapper.decode, NewByteArray, SetByteArrayRegion, byteArrayOf,
    World.after]
  simp
  split_ifs <;> first | omega | (simp_all <;> omega)

/-- Decode by handle, lost-packet branch (empty input). -/
theorem decodeOpusPacket_plc_run (L : OpusLib Λ) (env : JNIEnv) (ptr : Int)
    (w : World Λ) (g : OpusDecoderWrapper) (d : Nat) (f m : Int)
    (r : (Int × List Int) × Λ)
    (hp : ptr ≠ 0) (hg : w.heap.lookup ptr = some g) (hd : g.decoder = some d)
    (hf : f = Int.tdiv g.sampleRate 50)
    (hv : vector_available env (wrap32 (f * g.channels)) = true)
    (hr : L.opus_decode w.lib d none 0 f 0 = r)
    (hm : m = wrap32 (r.1.1 * g.channels)) :
    Java_com_wabycheck_ond_MainActivity_decodeOpusPacket L env ptr [] w =
      if r.1.1 ≤ 0 then
        (JArrayRet.null, w.after r.2
          [Event.opus_decode d none 0 f r.1.1,
            Event.vector_short (wrap32 (f * g.channels))])
      else if env.NewArray_ok = true ∧ 0 ≤ m then
        if m ≤ wrap32 (f * g.channels) then
          (JArrayRet.array (shortArrayOf m
              (storePcm (List.replicate (wrap32 (f * g.channels)).toNat 0) r.1.2)),
            w.after r.2
              [Event.SetShortArrayRegion m, Event.NewShortArray m,
                Event.opus_decode d none 0 f r.1.1,
            Event.vector_short (wrap32 (f * g.channels))])
        else
          (JArrayRet.abort, w.after r.2
            [Event.SetShortArrayRegion m, Event.NewShortArray m,
              Event.opus_decode d none 0 f r.1.1,
            Event.vector_short (wrap32 (f * g.channels))])
      else
        (JArrayRet.abort, w.after r.2
          [Event.opus_decode d none 0 f r.1.1,
            Event.vector_short (wrap32 (f * g.channels))]) := by
  have hn := vector_available_nonneg env _ hv
  have hbl := buffer_length_cast (wrap32 (f * g.channels)) r.1.2 hn
  subst hf
  subst hr hm
  unfold Java_com_wabycheck_ond_MainActivity_decodeOpusPacket
  simp only [hg, OpusDecoderWrapper.isValid, hd, vector_short, hv,
    OpusDecoderWrapper.getMaxFrameSize, OpusDecoderWrapper.getChannels,
    OpusDecoderWrapper.getSampleRate, OpusDecoderWrapper.decode, NewShortArray, SetShortArrayRegion, shortArrayOf,
    World.after]
  simp [hp]
  split_ifs <;> first | omega | simp_all

/-- Decode by handle, non-empty acquired input whose sample count is positive. -/
theorem decodeOpusPacket_run (L : OpusLib Λ) (env : JNIEnv) (ptr : Int) (data : List Int)
    (w : World Λ) (g : OpusDecoderWrapper) (d : Nat) (f m : Int)
    (r : (Int × List Int) × Λ)
    (hp : ptr ≠ 0) (hg : w.heap.lookup ptr = some g) (hd : g.decoder = some d)
    (hne : data ≠ []) (hok : env.GetByteArrayElements_ok = true)
    (hf : f = L.opus_packet_get_nb_samples data data.length g.sampleRate)
    (hpos : 0 < f)
    (hv : vector_available env (wrap32 (f * g.channels)) = true)
    (hr : L.opus_decode w.lib d (some data) data.length f 0 = r)
    (hm : m = wrap32 (r.1.1 * g.channels)) :
    Java_com_wabycheck_ond_MainActivity_decodeOpusPacket L env ptr data w =
      if r.1.1 ≤ 0 then
        (JArrayRet.null, w.after r.2
          [Event.opus_decode d (some data) data.length f r.1.1,
            Event.vector_short (wrap32 (f * g.channels)),
            Event.opus_packet_get_nb_samples data data.length g.sampleRate f])
      else if env.NewArray_ok = true ∧ 0 ≤ m then
        if m ≤ wrap32 (f * g.channels) then
          (JArrayRet.array (shortArrayOf m
              (storePcm (List.replicate (wrap32 (f * g.channels)).toNat 0) r.1.2)),
            w.after r.2
              [Event.SetShortArrayRegion m, Event.NewShortArray m,
                Event.opus_decode d (some data) data.length f r.1.1,
            Event.vector_short (wrap32 (f * g.channels)),
            Event.opus_packet_get_nb_samples data data.length g.sampleRate f])
        else
          (JArrayRet.abort, w.after r.2
            [Event.SetShortArrayRegion m, Event.NewShortArray m,
              Event.opus_decode d (some data) data.length f r.1.1,
            Event.vector_short (wrap32 (f * g.channels)),
            Event.opus_packet_get_nb_samples data data.length g.sampleRate f])
      else
        (JArrayRet.abort, w.after r.2
          [Event.opus_decode d (some data) data.length f r.1.1,
            Event.vector_short (wrap32 (f * g.channels)),
            Event.opus_packet_get_nb_samples data data.length g.sampleRate f]) := by
  have hn := vector_available_nonneg env _ hv
  have hbl := buffer_length_cast (wrap32 (f * g.channels)) r.1.2 hn
  have hlen := length_pos_cast hne
  have hpos2 : ¬ (f ≤ 0) := by omega
  subst hr hm
  unfold Java_com_wabycheck_ond_MainActivity_decodeOpusPacket
  simp only [hg, OpusDecoderWrapper.isValid, hd, vector_short, hv,
    OpusDecoderWrapper.getMaxFrameSize, OpusDecoderWrapper.getChannels,
    OpusDecoderWrapper.getSampleRate, OpusDecoderWrapper.decode, NewShortArray, SetShortArrayRegion, shortArrayOf,
    World.after, hok, ← hf, hpos2]
  simp [hp, hne, hpos2]
  split_ifs <;> first | omega | simp_all

theorem newEvents_after (w : World Λ) (lib : Λ) (events : List Event) :
    newEvents w (w.after lib events) = events := by
  simp [newEvents, World.after]

theorem newEvents_self (w : World Λ) : newEvents w w = [] := by
  simp [newEvents]

/-- The four entry points have the common shape. -/
theorem DecodeCall.run_outcome (L : OpusLib Λ) (w : World Λ) (g : OpusDecoderWrapper) (d : Nat)
    (call : DecodeCall) (hs : call.session w = some g) (hd : g.decoder = some d)
    (hin : call.inputReady = true)
    (hn : vector_available call.env (wrap32 (call.frameSize L g * g.channels)) = true)
    (hq : ∀ env ptr data, call = DecodeCall.decodeByHandle env ptr data → data ≠ [] →
      0 < call.frameSize L g) :
    call.run L w = call.outcome L w g d := by
  cases call with
  | decode env data fs =>
    simp only [DecodeCall.inputReady, Bool.and_eq_true, Bool.not_eq_true',
      List.isEmpty_eq_false] at hin
    simp only [DecodeCall.session] at hs
    simp only [DecodeCall.frameSize, OpusDecoderWrapper.getMaxFrameSize, DecodeCall.env] at hn
    rw [DecodeCall.run, decodeOpus_run L env data fs w g d _ _ _ hs hd hin.1 hin.2 rfl hn rfl rfl]
    simp only [DecodeCall.outcome, DecodeCall.frameSize, DecodeCall.codecData,
      DecodeCall.codecLen, DecodeCall.queryEvents, DecodeCall.zeroFails, DecodeCall.outputLen,
      DecodeCall.outputArray, DecodeCall.outputEvents, DecodeCall.allocFailure, DecodeCall.env,
      DecodeCall.elementsPerSample,
      OpusDecoderWrapper.getMaxFrameSize]
    simp
  | decodeAutosized env data fs =>
    simp only [DecodeCall.inputReady, Bool.and_eq_true, Bool.not_eq_true',
      List.isEmpty_eq_false] at hin
    simp only [DecodeCall.session] at hs
    simp only [DecodeCall.frameSize, OpusDecoderWrapper.getMaxFrameSize,
      OpusDecoderWrapper.getSampleRate, DecodeCall.env] at hn
    rw [DecodeCall.run,
      decodeAutosized_run L env data fs _ w g d _ _ _ hs hd hin.1 hin.2 rfl rfl hn rfl rfl]
    simp only [DecodeCall.outcome, DecodeCall.frameSize, DecodeCall.codecData,
      DecodeCall.codecLen, DecodeCall.queryEvents, DecodeCall.zeroFails, DecodeCall.outputLen,
      DecodeCall.outputArray, DecodeCall.outputEvents, DecodeCall.allocFailure, DecodeCall.env,
      DecodeCall.elementsPerSample,
      OpusDecoderWrapper.getMaxFrameSize, OpusDecoderWrapper.getSampleRate]
    simp
  | decodePlc env fs =>
    simp only [DecodeCall.session] at hs
    simp only [DecodeCall.frameSize, OpusDecoderWrapper.getMaxFrameSize, DecodeCall.env] at hn
    rw [DecodeCall.run, decodePlc_run L env fs w g d _ _ _ hs hd rfl hn rfl rfl]
    simp only [DecodeCall.outcome, DecodeCall.frameSize, DecodeCall.codecData,
      DecodeCall.codecLen, DecodeCall.queryEvents, DecodeCall.zeroFails, DecodeCall.outputLen,
      DecodeCall.outputArray, DecodeCall.outputEvents, DecodeCall.allocFailure, DecodeCall.env,
      DecodeCall.elementsPerSample,
      OpusDecoderWrapper.getMaxFrameSize]
    have hle : ∀ x : Int, (x < 0 ∨ x = 0) ↔ x ≤ 0 := by
      intro x
      omega
    simp [hle]
  | decodeByHandle env ptr data =>
    by_cases hp : ptr = 0
    · simp [DecodeCall.session, hp] at hs
    · simp only [DecodeCall.session, beq_iff_eq, hp, if_false] at hs
      have hle : ∀ x : Int, (x < 0 ∨ x = 0) ↔ x ≤ 0 := by
        intro x
        omega
      by_cases he : data = []
      · subst he
        simp only [DecodeCall.frameSize, OpusDecoderWrapper.getSampleRate, List.length_nil,
          if_true, DecodeCall.env] at hn
        rw [DecodeCall.run, decodeOpusPacket_plc_run L env ptr w g d _ _ _ hp hs hd rfl hn rfl rfl]
        simp only [DecodeCall.outcome, DecodeCall.frameSize, DecodeCall.codecData,
          DecodeCall.codecLen, DecodeCall.queryEvents, DecodeCall.zeroFails,
          DecodeCall.outputLen, DecodeCall.outputArray, DecodeCall.outputEvents,
          DecodeCall.allocFailure, DecodeCall.env, DecodeCall.elementsPerSample,
          OpusDecoderWrapper.getSampleRate]
        simp [hle]
      · have hpos := hq env ptr data rfl he
        have hok : env.GetByteArrayElements_ok = true := by
          simpa [DecodeCall.inputReady, he] using hin
        have hlen : ¬ (data.length = 0) := by
          simpa using he
        simp only [DecodeCall.frameSize, OpusDecoderWrapper.getSampleRate, hlen, if_false,
          DecodeCall.env] at hn hpos
        rw [DecodeCall.run,
          decodeOpusPacket_run L env ptr data w g d _ _ _ hp hs hd he hok rfl hpos hn rfl rfl]
        simp only [DecodeCall.outcome, DecodeCall.frameSize, DecodeCall.codecData,
          DecodeCall.codecLen, DecodeCall.queryEvents, DecodeCall.zeroFails,
          DecodeCall.outputLen, DecodeCall.outputArray, DecodeCall.outputEvents,
          DecodeCall.allocFailure, DecodeCall.env, DecodeCall.elementsPerSample,
          OpusDecoderWrapper.getSampleRate, hlen,
          if_false]
        simp [hle]

theorem newEvents_of_trace (w w1 : World Λ) (events : List Event)
    (h : w1.trace = events ++ w.trace) : newEvents w w1 = events := by
  simp [newEvents, h]

theorem add_sub_self_1 (n : Nat) : n + 1 - n = 1 := by omega

theorem add_sub_self_2 (n : Nat) : n + 1 + 1 - n = 2 := by omega

theorem add_sub_self_3 (n : Nat) : n + 1 + 1 + 1 - n = 3 := by omega

theorem add_sub_self_4 (n : Nat) : n + 1 + 1 + 1 + 1 - n = 4 := by omega

/-- Every call of a decode entry point either never reaches the codec's decode, or runs on a
valid session with ready input and a constructed buffer and has the common shape. -/
theorem DecodeCall.run_cases (L : OpusLib Λ) (w : World Λ) (call : DecodeCall) :
    (decodeCalls (newEvents w (call.run L w).2) = [] ∧
        (call.run L w).2.globalDecoder = w.globalDecoder) ∨
      ∃ g d, call.session w = some g ∧ g.decoder = some d ∧ call.inputReady = true ∧
        vector_available call.env (wrap32 (call.frameSize L g * g.channels)) = true ∧
        call.run L w = call.outcome L w g d := by
  cases call with
  | decode env data fs =>
    cases hg : w.globalDecoder with
    | none =>
      left
      simp [DecodeCall.run, Java_com_wabycheck_ond_MainActivity_decodeOpus, hg, newEvents_self,
        decodeCalls]
    | some g =>
      cases hd : g.decoder with
      | none =>
        left
        simp [DecodeCall.run, Java_com_wabycheck_ond_MainActivity_decodeOpus, hg, hd,
          OpusDecoderWrapper.isValid, newEvents_self, decodeCalls]
      | some d =>
        by_cases hne : data = []
        · left
          simp [DecodeCall.run, Java_com_wabycheck_ond_MainActivity_decodeOpus, hg, hd, hne,
            OpusDecoderWrapper.isValid, newEvents_self, decodeCalls]
        · by_cases hok : env.GetByteArrayElements_ok = true
          · by_cases hn : vector_available env
                (wrap32 ((DecodeCall.decode env data fs).frameSize L g * g.channels)) = true
            · right
              refine ⟨g, d, hg, hd, ?_, hn, ?_⟩
              · simp [DecodeCall.inputReady, hne, hok]
              · exact DecodeCall.run_outcome L w g d _ hg hd
                  (by simp [DecodeCall.inputReady, hne, hok]) hn (by intro _ _ _ h; cases h)
            · left
              simp only [DecodeCall.frameSize, OpusDecoderWrapper.getMaxFrameSize] at hn
              have hn2 := hn
              have hlen := length_pos_cast hne
              simp only [DecodeCall.run, Java_com_wabycheck_ond_MainActivity_decodeOpus, hg, hd,
                hlen, hok, OpusDecoderWrapper.isValid, vector_short, hn2,
                OpusDecoderWrapper.getMaxFrameSize, OpusDecoderWrapper.getChannels]
              simp [newEvents_self, decodeCalls, hg]
          · left
            have hlen := length_pos_cast hne
            simp [DecodeCall.run, Java_com_wabycheck_ond_MainActivity_decodeOpus, hg, hd, hlen,
              hok, OpusDecoderWrapper.isValid, newEvents_self, decodeCalls]
  | decodeAutosized env data fs =>
    cases hg : w.globalDecoder with
    | none =>
      left
      simp [DecodeCall.run, Java_com_wabycheck_ond_AudioStreamService_decodeOpus, hg,
        newEvents_self, decodeCalls]
    | some g =>
      cases hd : g.decoder with
      | none =>
        left
        simp [DecodeCall.run, Java_com_wabycheck_ond_AudioStreamService_decodeOpus, hg, hd,
          OpusDecoderWrapper.isValid, newEvents_self, decodeCalls]
      | some d =>
        by_cases hne : data = []
        · left
          simp [DecodeCall.run, Java_com_wabycheck_ond_AudioStreamService_decodeOpus, hg, hd,
            hne, OpusDecoderWrapper.isValid, newEvents_self, decodeCalls]
        · by_cases hok : env.GetByteArrayElements_ok = true
          · by_cases hn : vector_available env
                (wrap32 ((DecodeCall.decodeAutosized env data fs).frameSize L g * g.channels))
                = true
            · right
              refine ⟨g, d, hg, hd, ?_, hn, ?_⟩
              · simp [DecodeCall.inputReady, hne, hok]
              · exact DecodeCall.run_outcome L w g d _ hg hd
                  (by simp [DecodeCall.inputReady, hne, hok]) hn (by intro _ _ _ h; cases h)
            · left
              simp only [DecodeCall.frameSize, OpusDecoderWrapper.getMaxFrameSize,
                OpusDecoderWrapper.getSampleRate] at hn
              have hn2 := hn
              have hlen := length_pos_cast hne
              simp only [DecodeCall.run, Java_com_wabycheck_ond_AudioStreamService_decodeOpus,
                hg, hd, hlen, hok, OpusDecoderWrapper.isValid, vector_short, hn2,
                OpusDecoderWrapper.getMaxFrameSize, OpusDecoderWrapper.getChannels,
                OpusDecoderWrapper.getSampleRate]
              simp [newEvents, decodeCalls]
          · left
            have hlen := length_pos_cast hne
            simp [DecodeCall.run, Java_com_wabycheck_ond_AudioStreamService_decodeOpus, hg, hd,
              hlen, hok, OpusDecoderWrapper.isValid, newEvents_self, decodeCalls]
  | decodePlc env fs =>
    cases hg : w.globalDecoder with
    | none =>
      left
      simp [DecodeCall.run, Java_com_wabycheck_ond_AudioStreamService_decodePlc, hg,
        newEvents_self, decodeCalls]
    | some g =>
      cases hd : g.decoder with
      | none =>
        left
        simp [DecodeCall.run, Java_com_wabycheck_ond_AudioStreamService_decodePlc, hg, hd,
          OpusDecoderWrapper.isValid, newEvents_self, decodeCalls]
      | some d =>
        by_cases hn : vector_available env
            (wrap32 ((DecodeCall.decodePlc env fs).frameSize L g * g.channels)) = true
        · right
          exact ⟨g, d, hg, hd, rfl, hn,
            DecodeCall.run_outcome L w g d _ hg hd rfl hn (by intro _ _ _ h; cases h)⟩
        · left
          simp only [DecodeCall.frameSize, OpusDecoderWrapper.getMaxFrameSize] at hn
          have hn2 := hn
          simp only [DecodeCall.run, Java_com_wabycheck_ond_AudioStreamService_decodePlc, hg, hd,
            OpusDecoderWrapper.isValid, vector_short, hn2,
            OpusDecoderWrapper.getMaxFrameSize, OpusDecoderWrapper.getChannels]
          simp [newEvents_self, decodeCalls, hg]
  | decodeByHandle env ptr data =>
    by_cases hp : ptr = 0
    · left
      simp [DecodeCall.run, Java_com_wabycheck_ond_MainActivity_decodeOpusPacket, hp,
        newEvents_self, decodeCalls]
    · cases hg : w.heap.lookup ptr with
      | none =>
        left
        simp [DecodeCall.run, Java_com_wabycheck_ond_MainActivity_decodeOpusPacket, hp, hg,
          newEvents_self, decodeCalls]
      | some g =>
        have hs : (DecodeCall.decodeByHandle env ptr data).session w = some g := by
          simp [DecodeCall.session, hp, hg]
        cases hd : g.decoder with
        | none =>
          left
          simp only [DecodeCall.run, Java_com_wabycheck_ond_MainActivity_decodeOpusPacket, hg,
            OpusDecoderWrapper.decode, hd, vector_short, NewShortArray, SetShortArrayRegion]
          simp only [beq_iff_eq, hp, if_false]
          split_ifs <;>
            (try simp only [List.length_cons]) <;>
            (try split_ifs) <;>
            simp [newEvents, decodeCalls, add_sub_self_1, add_sub_self_2, add_sub_self_3,
              add_sub_self_4]
        | some d =>
          by_cases hne : data = []
          · subst hne
            by_cases hn : vector_available env
                (wrap32 ((DecodeCall.decodeByHandle env ptr []).frameSize L g * g.channels))
                = true
            · right
              exact ⟨g, d, hs, hd, rfl, hn,
                DecodeCall.run_outcome L w g d _ hs hd rfl hn (by intro _ _ _ h h2; cases h; exact absurd rfl h2)⟩
            · left
              simp only [DecodeCall.frameSize, OpusDecoderWrapper.getSampleRate,
                List.length_nil, if_true] at hn
              have hn2 := hn
              simp only [DecodeCall.run, Java_com_wabycheck_ond_MainActivity_decodeOpusPacket,
                hg, hd, vector_short, hn2, OpusDecoderWrapper.getSampleRate,
                OpusDecoderWrapper.getChannels]
              simp [hp, newEvents_self, decodeCalls]
          · have hlen := length_pos_cast hne
            have hlen0 : ¬ (data.length = 0) := by simpa using hne
            by_cases hok : env.GetByteArrayElements_ok = true
            · by_cases hpos : 0 < L.opus_packet_get_nb_samples data data.length g.sampleRate
              · by_cases hn : vector_available env
                    (wrap32 ((DecodeCall.decodeByHandle env ptr data).frameSize L g
                      * g.channels)) = true
                · right
                  refine ⟨g, d, hs, hd, ?_, hn, ?_⟩
                  · simp [DecodeCall.inputReady, hok]
                  · refine DecodeCall.run_outcome L w g d _ hs hd
                      (by simp [DecodeCall.inputReady, hok]) hn ?_
                    intro _ _ _ h _
                    simpa [DecodeCall.frameSize, OpusDecoderWrapper.getSampleRate, hlen0]
                      using hpos
                · left
                  simp only [DecodeCall.frameSize, OpusDecoderWrapper.getSampleRate, hlen0,
                    if_false] at hn
                  have hn2 := hn
                  have hpos2 : ¬ (L.opus_packet_get_nb_samples data data.length g.sampleRate ≤ 0) := by
                    omega
                  simp only [DecodeCall.run,
                    Java_com_wabycheck_ond_MainActivity_decodeOpusPacket, hg, hd, vector_short,
                    hn2, hok, hpos2, OpusDecoderWrapper.getSampleRate,
                    OpusDecoderWrapper.getChannels]
                  simp [hp, hne, newEvents, decodeCalls, add_sub_self_1, add_sub_self_2]
              · left
                have hpos2 : L.opus_packet_get_nb_samples data data.length g.sampleRate ≤ 0 := by
                  omega
                simp only [DecodeCall.run,
                  Java_com_wabycheck_ond_MainActivity_decodeOpusPacket, hg, hd,
                  hok, hpos2, OpusDecoderWrapper.getSampleRate,
                  OpusDecoderWrapper.getChannels]
                simp [hp, hne, newEvents, decodeCalls, add_sub_self_1, add_sub_self_2]
            · left
              simp only [DecodeCall.run, Java_com_wabycheck_ond_MainActivity_decodeOpusPacket,
                hg, hd, hok]
              simp [hp, hne, newEvents_self, decodeCalls]

/-! ## Facts about traces, 32-bit products and arrays -/

theorem decodeCalls_append (xs ys : List Event) :
    decodeCalls (xs ++ ys) = decodeCalls xs ++ decodeCalls ys := by
  induction xs with
  | nil => simp [decodeCalls]
  | cons e es ih => cases e <;> simp [decodeCalls, ih]

theorem vectorSizes_append (xs ys : List Event) :
    vectorSizes (xs ++ ys) = vectorSizes xs ++ vectorSizes ys := by
  induction xs with
  | nil => simp [vectorSizes]
  | cons e es ih => cases e <;> simp [vectorSizes, ih]

theorem mem_decodeCalls (evs : List Event) (d : Nat) (data : Option (List Int))
    (len f s : Int) :
    (d, data, len, f, s) ∈ decodeCalls evs ↔ Event.opus_decode d data len f s ∈ evs := by
  induction evs with
  | nil => simp [decodeCalls]
  | cons e es ih => cases e <;> simp [decodeCalls, ih]

theorem DecodeCall.queryEvents_calls (L : OpusLib Λ) (g : OpusDecoderWrapper)
    (call : DecodeCall) :
    decodeCalls (call.queryEvents L g) = [] ∧ vectorSizes (call.queryEvents L g) = [] ∧
      ∀ e ∈ call.queryEvents L g, e.isOutput = false := by
  cases call <;> simp only [DecodeCall.queryEvents] <;> (try split_ifs) <;>
    simp [decodeCalls, vectorSizes, Event.isOutput]

theorem DecodeCall.outputEvents_calls (m : Int) (call : DecodeCall) :
    decodeCalls (call.outputEvents m) = [] ∧ vectorSizes (call.outputEvents m) = [] := by
  cases call <;> simp [DecodeCall.outputEvents, decodeCalls, vectorSizes]

/-- The common shape makes exactly one codec call and constructs exactly one PCM buffer. -/
theorem DecodeCall.outcome_calls (L : OpusLib Λ) (w : World Λ) (g : OpusDecoderWrapper)
    (d : Nat) (call : DecodeCall) :
    decodeCalls (newEvents w (call.outcome L w g d).2)
        = [(d, call.codecData, call.codecLen, call.frameSize L g,
            (L.opus_decode w.lib d call.codecData call.codecLen (call.frameSize L g) 0).1.1)] ∧
      vectorSizes (newEvents w (call.outcome L w g d).2)
        = [wrap32 (call.frameSize L g * g.channels)] := by
  have hq := DecodeCall.queryEvents_calls L g call
  have ho := fun m => DecodeCall.outputEvents_calls m call
  unfold DecodeCall.outcome
  simp only []
  split_ifs <;>
    simp [newEvents_after, decodeCalls_append, vectorSizes_append, decodeCalls, vectorSizes,
      hq.1, hq.2.1, (ho _).1, (ho _).2]

theorem setRegion_length (array : List Int) (len : Int) (src : List Int) :
    (setRegion array len src).length = array.length := by
  simp [setRegion]

theorem DecodeCall.outputArray_length (m : Int) (buffer : List Int) (call : DecodeCall) :
    (call.outputArray m buffer).length = m.toNat := by
  cases call <;> simp [DecodeCall.outputArray, byteArrayOf, shortArrayOf, setRegion_length]

theorem wrap32_of_isInt32 (x : Int) (h : isInt32 x) : wrap32 x = x := by
  unfold isInt32 at h
  unfold wrap32
  omega

/-- A positive frame size with one or two channels whose buffer can be constructed has an
exact 32-bit product. -/
theorem frame_product_exact (f c : Int) (hc : c = 1 ∨ c = 2) (hf0 : 0 ≤ f) (hf : isInt32 f)
    (hn : 0 ≤ wrap32 (f * c)) : f * c ≤ 2147483647 ∧ wrap32 (f * c) = f * c := by
  unfold isInt32 at hf
  unfold wrap32 at hn ⊢
  rcases hc with hc | hc <;> subst hc <;> omega

/-! ## The singleton session over runs -/

theorem globalDecoder_reset_absent (L : OpusLib Λ) (w : World Λ) :
    (globalDecoder_reset L w).globalDecoder = none := by
  unfold globalDecoder_reset
  cases hg : w.globalDecoder with
  | none => simpa using hg
  | some g => rfl

theorem globalDecoder_reset_of_absent (L : OpusLib Λ) (w : World Λ)
    (h : w.globalDecoder = none) : globalDecoder_reset L w = w := by
  unfold globalDecoder_reset
  rw [h]

theorem ctor_frame (L : OpusLib Λ) (sr ch : Int) (w : World Λ) :
    (OpusDecoderWrapper.ctor L sr ch w).2.globalDecoder = w.globalDecoder ∧
      (OpusDecoderWrapper.ctor L sr ch w).1.sampleRate = sr ∧
      (OpusDecoderWrapper.ctor L sr ch w).1.channels = ch ∧
      (OpusDecoderWrapper.ctor L sr ch w).1.maxFrameSize = 5760 := by
  unfold OpusDecoderWrapper.ctor
  simp only []
  split_ifs <;> exact ⟨rfl, rfl, rfl, by show (48000 * 120 / 1000 : Int) = 5760; decide⟩

/-- What `initOpusDecoder` leaves in the singleton: a valid wrapper with the given rate and
channel count, or nothing when the constructed wrapper is not valid. -/
theorem initMain_globalDecoder (L : OpusLib Λ) (sr ch : Int) (w : World Λ) :
    (∀ g, (Java_com_wabycheck_ond_MainActivity_initOpusDecoder L sr ch w).globalDecoder
        = some g →
        g.isValid = true ∧ g.sampleRate = sr ∧ g.channels = ch ∧ g.maxFrameSize = 5760) ∧
      ((OpusDecoderWrapper.ctor L sr ch (globalDecoder_reset L w)).1.isValid = false →
        (Java_com_wabycheck_ond_MainActivity_initOpusDecoder L sr ch w).globalDecoder
          = none) := by
  have hc := ctor_frame L sr ch (globalDecoder_reset L w)
  unfold Java_com_wabycheck_ond_MainActivity_initOpusDecoder
  simp only []
  cases hv : (OpusDecoderWrapper.ctor L sr ch (globalDecoder_reset L w)).1.isValid with
  | false =>
    simp [globalDecoder_reset_absent]
  | true =>
    simp only [Bool.not_true, Bool.false_eq_true, if_false, Option.some.injEq]
    refine ⟨?_, by simp⟩
    intro g hg
    subst hg
    exact ⟨hv, hc.2.1, hc.2.2.1, hc.2.2.2⟩

theorem initService_eq_initMain (L : OpusLib Λ) (sr ch : Int) (w : World Λ) :
    Java_com_wabycheck_ond_AudioStreamService_initOpusDecoder L sr ch w
      = Java_com_wabycheck_ond_MainActivity_initOpusDecoder L sr ch w := rfl

/-- The decode entry points leave the singleton pointer as it is. -/
theorem DecodeCall.run_globalDecoder (L : OpusLib Λ) (w : World Λ) (call : DecodeCall) :
    (call.run L w).2.globalDecoder = w.globalDecoder := by
  rcases DecodeCall.run_cases L w call with h | ⟨g, d, _, _, _, _, hrun⟩
  · exact h.2
  · rw [hrun]
    unfold DecodeCall.outcome
    simp only []
    split_ifs <;> rfl

/-- The invariant of the singleton pointer: when present, the wrapper is valid and carries
the constructor's `maxFrameSize`. -/
theorem step_invariant (L : OpusLib Λ) (w : World Λ) (op : SingletonOp)
    (h : ∀ g, w.globalDecoder = some g → g.isValid = true ∧ g.maxFrameSize = 5760) :
    ∀ g, (step L w op).globalDecoder = some g → g.isValid = true ∧ g.maxFrameSize = 5760 := by
  cases op with
  | initMain sr ch =>
    intro g hg
    have := (initMain_globalDecoder L sr ch w).1 g hg
    exact ⟨this.1, this.2.2.2⟩
  | initService sr ch =>
    intro g hg
    have := (initMain_globalDecoder L sr ch w).1 g hg
    exact ⟨this.1, this.2.2.2⟩
  | decode env data fs =>
    have := DecodeCall.run_globalDecoder L w (DecodeCall.decode env data fs)
    simp only [DecodeCall.run] at this
    simp only [step, this]
    exact h
  | decodeAutosized env data fs =>
    have := DecodeCall.run_globalDecoder L w (DecodeCall.decodeAutosized env data fs)
    simp only [DecodeCall.run] at this
    simp only [step, this]
    exact h
  | decodePlc env fs =>
    have := DecodeCall.run_globalDecoder L w (DecodeCall.decodePlc env fs)
    simp only [DecodeCall.run] at this
    simp only [step, this]
    exact h
  | destroyMain =>
    intro g hg
    simp [step, Java_com_wabycheck_ond_MainActivity_destroyOpusDecoder,
      globalDecoder_reset_absent] at hg
  | destroyService =>
    intro g hg
    simp [step, Java_com_wabycheck_ond_AudioStreamService_destroyOpusDecoder,
      globalDecoder_reset_absent] at hg

theorem run_invariant (L : OpusLib Λ) (ops : List SingletonOp) (w : World Λ)
    (h : ∀ g, w.globalDecoder = some g → g.isValid = true ∧ g.maxFrameSize = 5760) :
    ∀ g, (run L w ops).globalDecoder = some g → g.isValid = true ∧ g.maxFrameSize = 5760 := by
  induction ops generalizing w with
  | nil => exact h
  | cons op ops ih => exact ih (step L w op) (step_invariant L w op h)

theorem reachable_invariant (L : OpusLib Λ) (w : World Λ) (h : Reachable L w)
    (g : OpusDecoderWrapper) (hg : w.globalDecoder = some g) :
    g.isValid = true ∧ g.maxFrameSize = 5760 := by
  obtain ⟨lib, ops, rfl⟩ := h
  refine run_invariant L ops (World.initial lib) ?_ g hg
  intro g0 h0
  simp [World.initial] at h0

theorem run_no_init (L : OpusLib Λ) (ops : List SingletonOp) (w : World Λ)
    (h : w.globalDecoder = none) (hops : ∀ op ∈ ops, op.isInit = false) :
    (run L w ops).globalDecoder = none := by
  induction ops generalizing w with
  | nil => exact h
  | cons op ops ih =>
    have hop := hops op (List.mem_cons_self _ _)
    refine ih (step L w op) ?_ (fun o ho => hops o (List.mem_cons_of_mem _ ho))
    cases op with
    | initMain sr ch => simp [SingletonOp.isInit] at hop
    | initService sr ch => simp [SingletonOp.isInit] at hop
    | decode env data fs =>
      have := DecodeCall.run_globalDecoder L w (DecodeCall.decode env data fs)
      simp only [DecodeCall.run] at this
      simp only [step, this, h]
    | decodeAutosized env data fs =>
      have := DecodeCall.run_globalDecoder L w (DecodeCall.decodeAutosized env data fs)
      simp only [DecodeCall.run] at this
      simp only [step, this, h]
    | decodePlc env fs =>
      have := DecodeCall.run_globalDecoder L w (DecodeCall.decodePlc env fs)
      simp only [DecodeCall.run] at this
      simp only [step, this, h]
    | destroyMain =>
      simp [step, Java_com_wabycheck_ond_MainActivity_destroyOpusDecoder,
        globalDecoder_reset_absent]
    | destroyService =>
      simp [step, Java_com_wabycheck_ond_AudioStreamService_destroyOpusDecoder,
        globalDecoder_reset_absent]

/-! ## The claims -/

/-- C1: `OpusDecoderWrapper::decode` returns the reference value for every session and
input; without a codec handle, or for absent data of non-zero size, the state (trace
included) is unchanged, so the codec's decode is not invoked; otherwise the codec's decode
is invoked once, with the given arguments, and its result is returned unchanged. -/
theorem decode_eq_reference (L : OpusLib Λ) (self : OpusDecoderWrapper)
    (encodedData : Option (List Int)) (encodedSize frameSize : Int) (w : World Λ) :
    (self.decode L encodedData encodedSize frameSize w).1.1
        = decode_reference L self encodedData encodedSize frameSize w ∧
      ((self.decoder = none ∨ (encodedData = none ∧ encodedSize ≠ 0)) →
        (self.decode L encodedData encodedSize frameSize w).2 = w) ∧
      (∀ d, self.decoder = some d → ¬ (encodedData = none ∧ encodedSize ≠ 0) →
        (self.decode L encodedData encodedSize frameSize w).1
            = (L.opus_decode w.lib d encodedData encodedSize frameSize 0).1 ∧
          (self.decode L encodedData encodedSize frameSize w).2.lib
            = (L.opus_decode w.lib d encodedData encodedSize frameSize 0).2 ∧
          (self.decode L encodedData encodedSize frameSize w).2.trace
            = Event.opus_decode d encodedData encodedSize frameSize
                (L.opus_decode w.lib d encodedData encodedSize frameSize 0).1.1 :: w.trace) := by
  cases hd : self.decoder with
  | none => simp [OpusDecoderWrapper.decode, decode_reference, hd]
  | some d =>
    by_cases hbad : encodedData = none ∧ encodedSize ≠ 0
    · obtain ⟨h1, h2⟩ := hbad
      simp [OpusDecoderWrapper.decode, decode_reference, hd, h1, h2]
    · have hb : (encodedData.isNone && encodedSize != 0) = false := by
        cases encodedData with
        | none =>
          have : encodedSize = 0 := by
            by_contra h
            exact hbad ⟨rfl, h⟩
          simp [this]
        | some x => simp
      simp [OpusDecoderWrapper.decode, decode_reference, hd, hb, hbad]

/-- C8: for zero-length input both packet queries return `-1` and leave the whole state
(library, trace, singleton, handles) as it was, for every sample rate and every state; for
non-empty input whose buffer is acquired they return what the codec primitive returns, and
only the record of that call is added to the trace. -/
theorem packet_queries (L : OpusLib Λ) (env : JNIEnv) (w : World Λ) :
    (∀ sample_rate : Int,
        Java_com_wabycheck_ond_MainActivity_getOpusPacketSamples L env [] sample_rate w
          = (-1, w)) ∧
      Java_com_wabycheck_ond_MainActivity_getOpusPacketChannels L env [] w = (-1, w) ∧
      (∀ (packet_data : List Int) (sample_rate : Int), packet_data ≠ [] →
        env.GetByteArrayElements_ok = true →
        Java_com_wabycheck_ond_MainActivity_getOpusPacketSamples L env packet_data sample_rate w
          = (L.opus_packet_get_nb_samples packet_data packet_data.length sample_rate,
              { w with
                trace := Event.opus_packet_get_nb_samples packet_data packet_data.length
                  sample_rate
                  (L.opus_packet_get_nb_samples packet_data packet_data.length sample_rate)
                  :: w.trace })) ∧
      (∀ packet_data : List Int, packet_data ≠ [] → env.GetByteArrayElements_ok = true →
        Java_com_wabycheck_ond_MainActivity_getOpusPacketChannels L env packet_data w
          = (L.opus_packet_get_nb_channels packet_data,
              { w with
                trace := Event.opus_packet_get_nb_channels packet_data
                  (L.opus_packet_get_nb_channels packet_data) :: w.trace })) := by
  refine ⟨?_, ?_, ?_, ?_⟩
  · intro sample_rate
    simp [Java_com_wabycheck_ond_MainActivity_getOpusPacketSamples]
  · simp [Java_com_wabycheck_ond_MainActivity_getOpusPacketChannels]
  · intro packet_data sample_rate hne hok
    have hlen : ¬ ((packet_data.length : Int) ≤ 0) := by
      have := List.length_pos.mpr hne
      omega
    simp [Java_com_wabycheck_ond_MainActivity_getOpusPacketSamples, hlen, hok]
  · intro packet_data hne hok
    have hlen : ¬ ((packet_data.length : Int) ≤ 0) := by
      have := List.length_pos.mpr hne
      omega
    simp [Java_com_wabycheck_ond_MainActivity_getOpusPacketChannels, hlen, hok]

/-- C9: create-handle returns 0 exactly when the constructed wrapper is not valid, that is
when the library's create reports an error other than `OPUS_OK` or yields no decoder; then
the handles, the singleton and the library state after the create call are untouched and
nothing but the create call is recorded.  Otherwise the result is a non-zero address under
which a valid wrapper with the given rate and channel count, holding the decoder the library
returned, is found. -/
theorem create_handle (L : OpusLib Λ) (sample_rate channels : Int) (w : World Λ) :
    ((Java_com_wabycheck_ond_MainActivity_createOpusDecoder L sample_rate channels w).1 = 0 ↔
        (OpusDecoderWrapper.ctor L sample_rate channels w).1.isValid = false) ∧
      ((OpusDecoderWrapper.ctor L sample_rate channels w).1.isValid = false ↔
        ((L.opus_decoder_create w.lib sample_rate channels).1.2 ≠ L.OPUS_OK ∨
          (L.opus_decoder_create w.lib sample_rate channels).1.1 = none)) ∧
      ((Java_com_wabycheck_ond_MainActivity_createOpusDecoder L sample_rate channels w).1 = 0 →
        (Java_com_wabycheck_ond_MainActivity_createOpusDecoder L sample_rate channels w).2.heap
            = w.heap ∧
          (Java_com_wabycheck_ond_MainActivity_createOpusDecoder L sample_rate channels
            w).2.globalDecoder = w.globalDecoder ∧
          (Java_com_wabycheck_ond_MainActivity_createOpusDecoder L sample_rate channels w).2.lib
            = (L.opus_decoder_create w.lib sample_rate channels).2 ∧
          (Java_com_wabycheck_ond_MainActivity_createOpusDecoder L sample_rate channels
            w).2.trace
            = Event.opus_decoder_create sample_rate channels
                (L.opus_decoder_create w.lib sample_rate channels).1.1
                (L.opus_decoder_create w.lib sample_rate channels).1.2 :: w.trace) ∧
      ((Java_com_wabycheck_ond_MainActivity_createOpusDecoder L sample_rate channels w).1 ≠ 0 →
        ∃ g : OpusDecoderWrapper,
          (Java_com_wabycheck_ond_MainActivity_createOpusDecoder L sample_rate channels
              w).2.heap.lookup
              (Java_com_wabycheck_ond_MainActivity_createOpusDecoder L sample_rate channels w).1
            = some g ∧
          g.isValid = true ∧ g.sampleRate = sample_rate ∧ g.channels = channels ∧
          g.decoder = (L.opus_decoder_create w.lib sample_rate channels).1.1 ∧
          (L.opus_decoder_create w.lib sample_rate channels).1.2 = L.OPUS_OK) := by
  have hpos : ¬ ((w.heapNext : Int) + 1 = 0) := by omega
  by_cases herr : (L.opus_decoder_create w.lib sample_rate channels).1.2 = L.OPUS_OK
  · cases hdec : (L.opus_decoder_create w.lib sample_rate channels).1.1 with
    | none =>
      simp [Java_com_wabycheck_ond_MainActivity_createOpusDecoder, OpusDecoderWrapper.ctor,
        OpusDecoderWrapper.isValid, OpusDecoderWrapper.dtor, herr, hdec]
    | some d =>
      simp [Java_com_wabycheck_ond_MainActivity_createOpusDecoder, OpusDecoderWrapper.ctor,
        OpusDecoderWrapper.isValid, OpusDecoderWrapper.dtor, herr, hdec, hpos, List.lookup]
  · simp [Java_com_wabycheck_ond_MainActivity_createOpusDecoder, OpusDecoderWrapper.ctor,
      OpusDecoderWrapper.isValid, OpusDecoderWrapper.dtor, herr]

/-- C2 (amended): on a valid singleton session created with (48000, 2), the singleton
decode entry points called with zero-length encoded bytes and frame size 960 return null
and leave the whole state unchanged (the codec is not invoked); the PLC path is decode-PLC,
which called with 960 invokes the codec's decode once, with no data, length 0 and frame
size 960, and on a returned count `s` with `0 < s ≤ 960` returns, when the output array can
be constructed, a byte array of length `s * 2 * 2`. -/
theorem empty_input_rejected (L : OpusLib Λ) (env : JNIEnv) (w0 w : World Λ)
    (g : OpusDecoderWrapper)
    (hw : w = Java_com_wabycheck_ond_MainActivity_initOpusDecoder L 48000 2 w0 ∨
      w = Java_com_wabycheck_ond_AudioStreamService_initOpusDecoder L 48000 2 w0)
    (hg : w.globalDecoder = some g) :
    Java_com_wabycheck_ond_MainActivity_decodeOpus L env [] 960 w = (JArrayRet.null, w) ∧
      Java_com_wabycheck_ond_AudioStreamService_decodeOpus L env [] 960 w
        = (JArrayRet.null, w) ∧
      ∃ d, g.decoder = some d ∧ g.sampleRate = 48000 ∧ g.channels = 2 ∧
        decodeCalls (newEvents w
            (Java_com_wabycheck_ond_AudioStreamService_decodePlc L env 960 w).2)
          = [(d, none, 0, 960, (L.opus_decode w.lib d none 0 960 0).1.1)] ∧
        (0 < (L.opus_decode w.lib d none 0 960 0).1.1 →
          (L.opus_decode w.lib d none 0 960 0).1.1 ≤ 960 → env.NewArray_ok = true →
          ∃ elems,
            (Java_com_wabycheck_ond_AudioStreamService_decodePlc L env 960 w).1
              = JArrayRet.array elems ∧
            (elems.length : Int) = (L.opus_decode w.lib d none 0 960 0).1.1 * 2 * 2) := by
  have hinit : g.isValid = true ∧ g.sampleRate = 48000 ∧ g.channels = 2 ∧
      g.maxFrameSize = 5760 := by
    rcases hw with hw | hw
    · rw [hw] at hg
      exact (initMain_globalDecoder L 48000 2 w0).1 g hg
    · rw [hw, initService_eq_initMain] at hg
      exact (initMain_globalDecoder L 48000 2 w0).1 g hg
  obtain ⟨hv, hsr, hch, _⟩ := hinit
  obtain ⟨d, hd⟩ := Option.isSome_iff_exists.mp hv
  have hw32 : wrap32 (960 * g.channels) = 1920 := by
    rw [hch]
    decide
  have hn : vector_available env (wrap32 (960 * g.channels)) = true := by
    rw [hw32]
    simp [vector_available]
  have hrun := decodePlc_run L env 960 w g d 960 _ _ hg hd (by simp) hn rfl rfl
  refine ⟨?_, ?_, d, hd, hsr, hch, ?_, ?_⟩
  · simp [Java_com_wabycheck_ond_MainActivity_decodeOpus, hg, hv]
  · simp [Java_com_wabycheck_ond_AudioStreamService_decodeOpus, hg, hv]
  · rw [hrun]
    split_ifs <;> simp [newEvents_after, decodeCalls]
  · intro hpos hle hok
    have hm : wrap32 (wrap32 ((L.opus_decode w.lib d none 0 960 0).1.1 * g.channels) * 2)
        = (L.opus_decode w.lib d none 0 960 0).1.1 * 2 * 2 := by
      rw [hch]
      unfold wrap32
      omega
    have hm0 : 0 ≤ wrap32
        (wrap32 ((L.opus_decode w.lib d none 0 960 0).1.1 * g.channels) * 2) := by
      rw [hm]
      omega
    have hcap : wrap32
        (wrap32 ((L.opus_decode w.lib d none 0 960 0).1.1 * g.channels) * 2)
        ≤ wrap32 (960 * g.channels) * 2 := by
      rw [hm, hw32]
      omega
    rw [hrun, if_neg (by omega), if_pos ⟨hok, hm0⟩, if_pos hcap]
    refine ⟨_, rfl, ?_⟩
    simp only [byteArrayOf, setRegion_length, List.length_replicate,
      Int.toNat_of_nonneg hm0]
    exact hm

/-- C3: in every state the singleton interface can reach, the global session is absent or
valid; while it is absent, decode, decode-autosized and decode-PLC return null and leave the
whole state (trace included) unchanged, so the codec's decode is not invoked; it is absent
at start-up and as long as no init was called, after an init whose wrapper is not valid,
and after destroy, and a repeated destroy changes nothing. -/
theorem singleton_absent_or_valid (L : OpusLib Λ) (w : World Λ) (hr : Reachable L w) :
    (w.globalDecoder = none ∨ ∃ g, w.globalDecoder = some g ∧ g.isValid = true) ∧
      (w.globalDecoder = none →
        ∀ (env : JNIEnv) (data : List Int) (fs : Int),
          Java_com_wabycheck_ond_MainActivity_decodeOpus L env data fs w
              = (JArrayRet.null, w) ∧
            Java_com_wabycheck_ond_AudioStreamService_decodeOpus L env data fs w
              = (JArrayRet.null, w) ∧
            Java_com_wabycheck_ond_AudioStreamService_decodePlc L env fs w
              = (JArrayRet.null, w)) ∧
      (∀ (lib : Λ) (ops : List SingletonOp), w = run L (World.initial lib) ops →
        (∀ op ∈ ops, op.isInit = false) → w.globalDecoder = none) ∧
      (∀ sr ch : Int,
        (OpusDecoderWrapper.ctor L sr ch (globalDecoder_reset L w)).1.isValid = false →
        (Java_com_wabycheck_ond_MainActivity_initOpusDecoder L sr ch w).globalDecoder = none ∧
          (Java_com_wabycheck_ond_AudioStreamService_initOpusDecoder L sr ch w).globalDecoder
            = none) ∧
      (Java_com_wabycheck_ond_MainActivity_destroyOpusDecoder L w).globalDecoder = none ∧
      (Java_com_wabycheck_ond_AudioStreamService_destroyOpusDecoder L w).globalDecoder
        = none ∧
      Java_com_wabycheck_ond_MainActivity_destroyOpusDecoder L
          (Java_com_wabycheck_ond_MainActivity_destroyOpusDecoder L w)
        = Java_com_wabycheck_ond_MainActivity_destroyOpusDecoder L w ∧
      Java_com_wabycheck_ond_AudioStreamService_destroyOpusDecoder L
          (Java_com_wabycheck_ond_AudioStreamService_destroyOpusDecoder L w)
        = Java_com_wabycheck_ond_AudioStreamService_destroyOpusDecoder L w := by
  refine ⟨?_, ?_, ?_, ?_, ?_, ?_, ?_, ?_⟩
  · cases hg : w.globalDecoder with
    | none => exact Or.inl rfl
    | some g => exact Or.inr ⟨g, rfl, (reachable_invariant L w hr g hg).1⟩
  · intro hg env data fs
    refine ⟨?_, ?_, ?_⟩
    · simp [Java_com_wabycheck_ond_MainActivity_decodeOpus, hg]
    · simp [Java_com_wabycheck_ond_AudioStreamService_decodeOpus, hg]
    · simp [Java_com_wabycheck_ond_AudioStreamService_decodePlc, hg]
  · intro lib ops hw hops
    rw [hw]
    exact run_no_init L ops (World.initial lib) rfl hops
  · intro sr ch hv
    exact ⟨(initMain_globalDecoder L sr ch w).2 hv, (initMain_globalDecoder L sr ch w).2 hv⟩
  · exact globalDecoder_reset_absent L w
  · exact globalDecoder_reset_absent L w
  · exact globalDecoder_reset_of_absent L _ (globalDecoder_reset_absent L w)
  · exact globalDecoder_reset_of_absent L _ (globalDecoder_reset_absent L w)

/-- C5: whenever a decode entry point returns an array after the codec's decode returned the
count `s`, on a session with one or two channels `c`, the array holds exactly `s * c`
samples: `s * c * 2` bytes for the singleton entry points, `s * c` shorts for decode by
handle.  The frame size `f` handed to the codec is a 32-bit `int` and the codec returns at
most `f` samples, as its interface states. -/
theorem output_length (L : OpusLib Λ) (w : World Λ) (call : DecodeCall)
    (g : OpusDecoderWrapper) (d : Nat) (data : Option (List Int)) (len f s : Int)
    (elems : List Int)
    (hsess : call.session w = some g) (hc : g.channels = 1 ∨ g.channels = 2)
    (hcalls : decodeCalls (newEvents w (call.run L w).2) = [(d, data, len, f, s)])
    (hf : isInt32 f) (hsf : s ≤ f)
    (hret : (call.run L w).1 = JArrayRet.array elems) :
    (elems.length : Int) = s * g.channels * call.elementsPerSample := by
  rcases DecodeCall.run_cases L w call with ⟨hnone, _⟩ | ⟨g1, d1, hs1, _, _, hn, hrun⟩
  · rw [hnone] at hcalls
    simp at hcalls
  · have hg : g1 = g := by
      rw [hsess] at hs1
      exact (Option.some.inj hs1).symm
    subst hg
    rw [hrun, (DecodeCall.outcome_calls L w g1 d1 call).1] at hcalls
    simp only [List.cons.injEq, Prod.mk.injEq, and_true] at hcalls
    obtain ⟨_, _, _, rfl, rfl⟩ := hcalls
    rw [hrun] at hret
    unfold DecodeCall.outcome at hret
    simp only [] at hret
    split_ifs at hret with h1 h2 h3
    · simp only [JArrayRet.array.injEq] at hret
      have hs0 : 0 ≤ (L.opus_decode w.lib d1 call.codecData call.codecLen
          (call.frameSize L g1) 0).1.1 := by
        by_contra hneg
        exact h1 (Or.inl (by omega))
      rw [← hret, DecodeCall.outputArray_length, Int.toNat_of_nonneg h2.2]
      have h2' := h2.2
      have hfc := frame_product_exact _ g1.channels hc (by omega) hf
        (vector_available_nonneg _ _ hn)
      unfold isInt32 at hf
      generalize (L.opus_decode w.lib d1 call.codecData call.codecLen
          (call.frameSize L g1) 0).1.1 = s at *
      generalize call.frameSize L g1 = f at *
      cases call <;>
        simp only [DecodeCall.outputLen, DecodeCall.elementsPerSample] at h2' ⊢ <;>
        unfold wrap32 at h2' ⊢ <;>
        rcases hc with hc | hc <;> rw [hc] at h2' hfc ⊢ <;> omega
    · cases call <;> simp [DecodeCall.allocFailure] at hret

/-- C6: in each of the four decode entry points, for every state and input, when the
codec's decode was called and returned a negative value the entry point returns the failure
signal (null), and no Java output array is constructed or written. -/
theorem decode_error_gives_null (L : OpusLib Λ) (w : World Λ) (call : DecodeCall)
    (d : Nat) (data : Option (List Int)) (len f s : Int)
    (hev : Event.opus_decode d data len f s ∈ newEvents w (call.run L w).2) (hs : s < 0) :
    (call.run L w).1 = JArrayRet.null ∧
      ∀ e ∈ newEvents w (call.run L w).2, e.isOutput = false := by
  rcases DecodeCall.run_cases L w call with ⟨hnone, _⟩ | ⟨g, d1, _, _, _, _, hrun⟩
  · have := (mem_decodeCalls _ d data len f s).mpr hev
    rw [hnone] at this
    simp at this
  · have hmem := (mem_decodeCalls _ d data len f s).mpr hev
    rw [hrun, (DecodeCall.outcome_calls L w g d1 call).1] at hmem
    simp only [List.mem_singleton, Prod.mk.injEq] at hmem
    obtain ⟨_, _, _, _, hs1⟩ := hmem
    have hneg : (L.opus_decode w.lib d1 call.codecData call.codecLen
        (call.frameSize L g) 0).1.1 < 0 := by
      rw [← hs1]
      exact hs
    rw [hrun]
    unfold DecodeCall.outcome
    simp only [hneg, true_or, if_true, newEvents_after]
    refine ⟨trivial, ?_⟩
    intro e he
    simp only [List.cons_append, List.nil_append, List.mem_cons] at he
    rcases he with he | he | he
    · subst he
      rfl
    · subst he
      rfl
    · exact (DecodeCall.queryEvents_calls L g call).2.2 e he

theorem DecodeCall.outputLen_exact (call : DecodeCall) (s c : Int)
    (hsw : wrap32 (s * c) = s * c) (h0 : 0 ≤ s * c) (h : 0 ≤ call.outputLen s c) :
    call.outputLen s c = s * c * call.elementsPerSample := by
  have hr : isInt32 (s * c) := by
    unfold isInt32
    unfold wrap32 at hsw
    omega
  unfold isInt32 at hr
  cases call <;> simp only [DecodeCall.outputLen, DecodeCall.elementsPerSample] at h ⊢ <;>
    rw [hsw] at h ⊢ <;> (try unfold wrap32 at h ⊢) <;> omega

theorem DecodeCall.mem_outputEvents (call : DecodeCall) (m n : Int) :
    (Event.SetByteArrayRegion n ∈ call.outputEvents m → n = m ∧ call.elementsPerSample = 2) ∧
      (Event.SetShortArrayRegion n ∈ call.outputEvents m →
        n = m ∧ call.elementsPerSample = 1) := by
  cases call <;> simp [DecodeCall.outputEvents, DecodeCall.elementsPerSample]

/-- The region copies of the common shape: each copies the output length, which is then
non-negative. -/
theorem DecodeCall.outcome_copies (L : OpusLib Λ) (w : World Λ) (g : OpusDecoderWrapper)
    (d : Nat) (call : DecodeCall) (n : Int) :
    (Event.SetByteArrayRegion n ∈ newEvents w (call.outcome L w g d).2 →
        n = call.outputLen
            (L.opus_decode w.lib d call.codecData call.codecLen (call.frameSize L g) 0).1.1
            g.channels ∧
          call.elementsPerSample = 2 ∧ 0 ≤ n) ∧
      (Event.SetShortArrayRegion n ∈ newEvents w (call.outcome L w g d).2 →
        n = call.outputLen
            (L.opus_decode w.lib d call.codecData call.codecLen (call.frameSize L g) 0).1.1
            g.channels ∧
          call.elementsPerSample = 1 ∧ 0 ≤ n) := by
  have hq := (DecodeCall.queryEvents_calls L g call).2.2
  have hbase : ∀ e : Event,
      e ∈ [Event.opus_decode d call.codecData call.codecLen (call.frameSize L g)
            (L.opus_decode w.lib d call.codecData call.codecLen (call.frameSize L g) 0).1.1,
          Event.vector_short (wrap32 (call.frameSize L g * g.channels))]
          ++ call.queryEvents L g → e.isOutput = true → False := by
    intro e hmem he
    simp only [List.cons_append, List.nil_append, List.mem_cons] at hmem
    rcases hmem with h | h | h
    · subst h
      simp [Event.isOutput] at he
    · subst h
      simp [Event.isOutput] at he
    · rw [hq e h] at he
      cases he
  unfold DecodeCall.outcome
  simp only []
  split_ifs with h1 h2 h3
  · simp only [newEvents_after]
    exact ⟨fun h => (hbase _ h rfl).elim, fun h => (hbase _ h rfl).elim⟩
  · simp only [newEvents_after, List.mem_append]
    constructor
    · intro h
      rcases h with h | h
      · have := (DecodeCall.mem_outputEvents call _ n).1 h
        exact ⟨this.1, this.2, by rw [this.1]; exact h2.2⟩
      · exact (hbase _ (List.mem_append.mpr h) rfl).elim
    · intro h
      rcases h with h | h
      · have := (DecodeCall.mem_outputEvents call _ n).2 h
        exact ⟨this.1, this.2, by rw [this.1]; exact h2.2⟩
      · exact (hbase _ (List.mem_append.mpr h) rfl).elim
  · simp only [newEvents_after, List.mem_append]
    constructor
    · intro h
      rcases h with h | h
      · have := (DecodeCall.mem_outputEvents call _ n).1 h
        exact ⟨this.1, this.2, by rw [this.1]; exact h2.2⟩
      · exact (hbase _ (List.mem_append.mpr h) rfl).elim
    · intro h
      rcases h with h | h
      · have := (DecodeCall.mem_outputEvents call _ n).2 h
        exact ⟨this.1, this.2, by rw [this.1]; exact h2.2⟩
      · exact (hbase _ (List.mem_append.mpr h) rfl).elim
  · simp only [newEvents_after]
    exact ⟨fun h => (hbase _ h rfl).elim, fun h => (hbase _ h rfl).elim⟩

/-- C10: in every decode entry point, on a session with one or two channels `c`, for every
positive 32-bit frame size `f` with which the codec's decode was called, the 32-bit product
`f * c` is exact (at most 2147483647, no overflow), exactly one PCM buffer was constructed
and it has `f * c` samples, that call is the only codec call, and when the codec returned
`s` with `0 ≤ s ≤ f` then `s * c` is exact in 32 bits and at most the buffer length, and
every region copy to the output copies `s * c` samples (`s * c * 2` bytes into a byte
array). -/
theorem pcm_buffer_exact (L : OpusLib Λ) (w : World Λ) (call : DecodeCall)
    (g : OpusDecoderWrapper) (d : Nat) (data : Option (List Int)) (len f s : Int)
    (hsess : call.session w = some g) (hc : g.channels = 1 ∨ g.channels = 2)
    (hev : Event.opus_decode d data len f s ∈ newEvents w (call.run L w).2)
    (hpos : 0 < f) (hf : isInt32 f) :
    f * g.channels ≤ 2147483647 ∧ wrap32 (f * g.channels) = f * g.channels ∧
      vectorSizes (newEvents w (call.run L w).2) = [f * g.channels] ∧
      decodeCalls (newEvents w (call.run L w).2) = [(d, data, len, f, s)] ∧
      (0 ≤ s → s ≤ f →
        s * g.channels ≤ f * g.channels ∧ wrap32 (s * g.channels) = s * g.channels ∧
          ∀ n : Int,
            (Event.SetByteArrayRegion n ∈ newEvents w (call.run L w).2 →
              n = s * g.channels * 2) ∧
            (Event.SetShortArrayRegion n ∈ newEvents w (call.run L w).2 →
              n = s * g.channels)) := by
  have hmem := (mem_decodeCalls _ d data len f s).mpr hev
  rcases DecodeCall.run_cases L w call with ⟨hnone, _⟩ | ⟨g1, d1, hs1, _, _, hv, hrun⟩
  · rw [hnone] at hmem
    simp at hmem
  · have hg : g1 = g := by
      rw [hsess] at hs1
      exact (Option.some.inj hs1).symm
    subst hg
    have hcalls := DecodeCall.outcome_calls L w g1 d1 call
    rw [← hrun] at hcalls
    rw [hcalls.1] at hmem
    simp only [List.mem_singleton, Prod.mk.injEq] at hmem
    obtain ⟨rfl, rfl, rfl, rfl, rfl⟩ := hmem
    have hfc := frame_product_exact _ g1.channels hc (by omega) hf
      (vector_available_nonneg _ _ hv)
    refine ⟨hfc.1, hfc.2, ?_, hcalls.1, ?_⟩
    · rw [hcalls.2, hfc.2]
    · intro hs0 hsf
      have hsc : (L.opus_decode w.lib d call.codecData call.codecLen
          (call.frameSize L g1) 0).1.1 * g1.channels
          ≤ call.frameSize L g1 * g1.channels := by
        rcases hc with hc | hc <;> rw [hc] <;> omega
      have h0 : 0 ≤ (L.opus_decode w.lib d call.codecData call.codecLen
          (call.frameSize L g1) 0).1.1 * g1.channels := by
        rcases hc with hc | hc <;> rw [hc] <;> omega
      have hsw : wrap32 ((L.opus_decode w.lib d call.codecData call.codecLen
          (call.frameSize L g1) 0).1.1 * g1.channels)
          = (L.opus_decode w.lib d call.codecData call.codecLen
              (call.frameSize L g1) 0).1.1 * g1.channels := by
        apply wrap32_of_isInt32
        unfold isInt32
        have := hfc.1
        omega
      refine ⟨hsc, hsw, ?_⟩
      intro n
      have hcop := DecodeCall.outcome_copies L w g1 d call n
      rw [← hrun] at hcop
      constructor
      · intro h
        obtain ⟨hn1, heps, hn0⟩ := hcop.1 h
        rw [hn1] at hn0
        rw [hn1, DecodeCall.outputLen_exact call _ _ hsw h0 hn0, heps]
      · intro h
        obtain ⟨hn1, heps, hn0⟩ := hcop.2 h
        rw [hn1] at hn0
        rw [hn1, DecodeCall.outputLen_exact call _ _ hsw h0 hn0, heps, mul_one]

/-! ## Concrete runs -/

/-- C2, as stated, fails: on the session created with (48000, 2), both singleton decode
entry points called with zero-length bytes and frame size 960 return null and never call
the codec's decode, although decode-PLC with 960 on the same state yields a buffer. -/
theorem empty_input_not_plc :
    (toyWorld 3).globalDecoder = some toySession ∧
      (Java_com_wabycheck_ond_MainActivity_decodeOpus (toyLib 3) envOk [] 960 (toyWorld 3)).1
        = JArrayRet.null ∧
      decodeCalls (newEvents (toyWorld 3)
        (Java_com_wabycheck_ond_MainActivity_decodeOpus (toyLib 3) envOk [] 960
          (toyWorld 3)).2) = [] ∧
      (Java_com_wabycheck_ond_AudioStreamService_decodeOpus (toyLib 3) envOk [] 960
        (toyWorld 3)).1 = JArrayRet.null ∧
      decodeCalls (newEvents (toyWorld 3)
        (Java_com_wabycheck_ond_AudioStreamService_decodeOpus (toyLib 3) envOk [] 960
          (toyWorld 3)).2) = [] ∧
      (Java_com_wabycheck_ond_AudioStreamService_decodePlc (toyLib 3) envOk 960
        (toyWorld 3)).1 ≠ JArrayRet.null := by
  refine ⟨by decide, by decide, by decide, by decide, by decide, ?_⟩
  rw [decodePlc_run (toyLib 3) envOk 960 (toyWorld 3) toySession 1 960 _ _ (by decide)
    (by decide) (by decide) (by decide) rfl rfl]
  decide

/-- An instance of `empty_input_rejected` on the toy library. -/
theorem empty_input_rejected_witness :
    (toyWorld 3).globalDecoder = some toySession ∧
      Java_com_wabycheck_ond_MainActivity_decodeOpus (toyLib 3) envOk [] 960 (toyWorld 3)
        = (JArrayRet.null, toyWorld 3) :=
  ⟨by decide,
    (empty_input_rejected (toyLib 3) envOk (World.initial 0) (toyWorld 3) toySession
      (Or.inl rfl) (by decide)).1⟩

/-- An instance of `singleton_absent_or_valid` on the toy library. -/
theorem singleton_absent_or_valid_witness :
    Reachable (toyLib 3) (toyWorld 3) ∧
      ((toyWorld 3).globalDecoder = none ∨
        ∃ g, (toyWorld 3).globalDecoder = some g ∧ g.isValid = true) :=
  ⟨⟨0, [SingletonOp.initMain 48000 2], rfl⟩,
    (singleton_absent_or_valid (toyLib 3) (toyWorld 3)
      ⟨0, [SingletonOp.initMain 48000 2], rfl⟩).1⟩

/-- An instance of `output_length`: three samples on two channels give twelve bytes. -/
theorem output_length_witness :
    ((DecodeCall.decodePlc envOk 4).run (toyLib 3) (toyWorld 3)).1
        = JArrayRet.array (List.replicate 12 0) ∧
      (((List.replicate 12 0 : List Int).length : Int))
        = 3 * toySession.channels * (DecodeCall.decodePlc envOk 4).elementsPerSample :=
  ⟨by decide,
    output_length (toyLib 3) (toyWorld 3) (DecodeCall.decodePlc envOk 4) toySession 1 none 0 4
      3 (List.replicate 12 0) (by decide) (by decide) (by decide) (by decide) (by decide)
      (by decide)⟩

/-- An instance of `decode_error_gives_null`: the toy codec answers `-2` for a packet of
five samples decoded with frame size 4. -/
theorem decode_error_gives_null_witness :
    Event.opus_decode 1 (some [5, 1]) 2 4 (-2) ∈ newEvents (toyWorld 3)
        ((DecodeCall.decode envOk [5, 1] 4).run (toyLib 3) (toyWorld 3)).2 ∧
      ((DecodeCall.decode envOk [5, 1] 4).run (toyLib 3) (toyWorld 3)).1 = JArrayRet.null :=
  ⟨by decide,
    (decode_error_gives_null (toyLib 3) (toyWorld 3) (DecodeCall.decode envOk [5, 1] 4) 1
      (some [5, 1]) 2 4 (-2) (by decide) (by decide)).1⟩

/-- An instance of `pcm_buffer_exact`: decode-PLC with frame size 4 on two channels builds
a buffer of 8 samples. -/
theorem pcm_buffer_exact_witness :
    Event.opus_decode 1 none 0 4 3 ∈ newEvents (toyWorld 3)
        ((DecodeCall.decodePlc envOk 4).run (toyLib 3) (toyWorld 3)).2 ∧
      vectorSizes (newEvents (toyWorld 3)
          ((DecodeCall.decodePlc envOk 4).run (toyLib 3) (toyWorld 3)).2)
        = [4 * toySession.channels] :=
  ⟨by decide,
    (pcm_buffer_exact (toyLib 3) (toyWorld 3) (DecodeCall.decodePlc envOk 4) toySession 1 none
      0 4 3 (by decide) (by decide) (by decide) (by decide) (by decide)).2.2.1⟩

end OpusJni
